import Mathlib

/-!
Verification development for the Task Microformat Engine of the
obsidian-tasks-mcp repository (src/TaskParser.ts).

JavaScript strings are modelled as lists of UTF-16 code units
(`JSStr := List Nat`), because the regular expressions in `TaskRegex`
are compiled without the `u` flag and therefore operate on individual
code units (astral emoji appear to those patterns as surrogate pairs),
while the serializer regexes use the `u` flag and operate on code
points.  JavaScript numbers are modelled as rationals.  Calendar dates
(`moment` values at day granularity) are modelled as civil
year/month/day triples; the current instant is a civil day plus a flag
telling whether the clock is strictly past midnight, which is exactly
the information `moment().diff(-, 'days')` (truncating division)
depends on.  External-library behaviour (`moment` arithmetic, the
`rrule` package) is modelled from its documented semantics; everything
else is translated from the TypeScript source.
-/

namespace TaskParser

/-! ## UTF-16 string model -/

abbrev JSStr := List Nat

def utf16Units (c : Char) : List Nat :=
  let n := c.toNat
  if n < 0x10000 then [n]
  else [0xD800 + (n - 0x10000) / 0x400, 0xDC00 + (n - 0x10000) % 0x400]

def jstr (s : String) : JSStr := (s.data.map utf16Units).flatten

/-- JavaScript whitespace (the `\s` class and `String.prototype.trim`). -/
def isJsWS (c : Nat) : Bool :=
  c = 0x20 || c = 0x09 || c = 0x0A || c = 0x0B || c = 0x0C || c = 0x0D ||
  c = 0xA0 || c = 0x1680 || (0x2000 ≤ c && c ≤ 0x200A) || c = 0x2028 ||
  c = 0x2029 || c = 0x202F || c = 0x205F || c = 0x3000 || c = 0xFEFF

/-- JavaScript line terminators, the characters `.` never matches. -/
def isLineTerm (c : Nat) : Bool :=
  c = 0x0A || c = 0x0D || c = 0x2028 || c = 0x2029

def isDigitU (c : Nat) : Bool := 0x30 ≤ c && c ≤ 0x39

def jsTrim (s : JSStr) : JSStr :=
  ((s.dropWhile isJsWS).reverse.dropWhile isJsWS).reverse

/-- ASCII lowercasing; `String.prototype.toLowerCase` restricted to the
code points that occur in the engine's filter vocabulary. -/
def jsToLower (s : JSStr) : JSStr :=
  s.map (fun c => if 0x41 ≤ c && c ≤ 0x5A then c + 0x20 else c)

/-- `String.prototype.includes` (substring test). -/
def jsIncludes (s pat : JSStr) : Bool :=
  match s with
  | [] => pat.isEmpty
  | _ :: t => pat.isPrefixOf s || jsIncludes t pat

/-- Leftmost occurrence of `sep` in `s`, returning the text before it and
the text after it. -/
def splitFirst (s sep : JSStr) : Option (JSStr × JSStr) :=
  match s with
  | [] => if sep.isEmpty then some ([], []) else none
  | c :: t =>
    if sep.isPrefixOf s then some ([], s.drop sep.length)
    else (splitFirst t sep).map (fun p => (c :: p.1, p.2))

def jsSplitFuel : Nat → JSStr → JSStr → List JSStr
  | 0, s, _ => [s]
  | fuel + 1, s, sep =>
    match splitFirst s sep with
    | none => [s]
    | some (pre, rest) => pre :: jsSplitFuel fuel rest sep

/-- `String.prototype.split` with a non-empty string separator. -/
def jsSplit (s sep : JSStr) : List JSStr := jsSplitFuel (s.length + 1) s sep

/-! ## Calendar dates -/

structure YMD where
  y : Int
  m : Int
  d : Int
deriving DecidableEq, Repr

def isLeap (y : Int) : Bool := (y % 4 == 0 && y % 100 != 0) || y % 400 == 0

def daysInMonth (y m : Int) : Int :=
  if m = 2 then (if isLeap y then 29 else 28)
  else if m = 4 ∨ m = 6 ∨ m = 9 ∨ m = 11 then 30
  else 31

def isValidYMD (x : YMD) : Bool :=
  1 ≤ x.m && x.m ≤ 12 && 1 ≤ x.d && x.d ≤ daysInMonth x.y x.m

/-- The day after `x` in the civil calendar. -/
def succDay (x : YMD) : YMD :=
  if x.d < daysInMonth x.y x.m then ⟨x.y, x.m, x.d + 1⟩
  else if x.m < 12 then ⟨x.y, x.m + 1, 1⟩
  else ⟨x.y + 1, 1, 1⟩

/-- The day before `x` in the civil calendar. -/
def predDay (x : YMD) : YMD :=
  if 1 < x.d then ⟨x.y, x.m, x.d - 1⟩
  else if 1 < x.m then ⟨x.y, x.m - 1, daysInMonth x.y (x.m - 1)⟩
  else ⟨x.y - 1, 12, 31⟩

/-- `moment(x).add(k, 'days')` (day-granular calendar arithmetic). -/
def addDays (x : YMD) (k : Int) : YMD :=
  if 0 ≤ k then succDay^[k.toNat] x else predDay^[(-k).toNat] x

/-- Days since 1970-01-01 of a civil date (Hinnant's algorithm, with
floor division).  Used to model `moment.diff(-, 'days')` between two
day-granular dates. -/
def civilToDays (x : YMD) : Int :=
  let y := if x.m ≤ 2 then x.y - 1 else x.y
  let era := y.fdiv 400
  let yoe := y - era * 400
  let mp := if 2 < x.m then x.m - 3 else x.m + 9
  let doy := (153 * mp + 2).fdiv 5 + x.d - 1
  let doe := yoe * 365 + yoe.fdiv 4 - yoe.fdiv 100 + doy
  era * 146097 + doe - 719468

/-- `moment(x).add(k, 'months')`: moment advances the month and clamps
the day-of-month to the last day of the target month when it would
overflow (documented moment.js behaviour, also used for `'years'` via
`k = 12 * years`). -/
def momentAddMonths (x : YMD) (k : Int) : YMD :=
  let t := x.y * 12 + (x.m - 1) + k
  let y := t / 12
  let m := t - y * 12 + 1
  ⟨y, m, min x.d (daysInMonth y m)⟩

/-- `moment('YYYY-MM-DD')` parsing: exactly ten units `dddd-dd-dd`
denoting a real calendar date; anything else is an invalid moment. -/
def parseYMD (s : JSStr) : Option YMD :=
  match s with
  | [a, b, c, d, h1, e, f, h2, g, h] =>
    if isDigitU a && isDigitU b && isDigitU c && isDigitU d &&
       h1 = 0x2D && isDigitU e && isDigitU f && h2 = 0x2D &&
       isDigitU g && isDigitU h then
      let yv : Int := ((a - 0x30) * 1000 + (b - 0x30) * 100 + (c - 0x30) * 10 + (d - 0x30) : Nat)
      let mv : Int := ((e - 0x30) * 10 + (f - 0x30) : Nat)
      let dv : Int := ((g - 0x30) * 10 + (h - 0x30) : Nat)
      if isValidYMD ⟨yv, mv, dv⟩ then some ⟨yv, mv, dv⟩ else none
    else none
  | _ => none

def natToDigits : Nat → Nat → List Nat
  | 0, _ => []
  | fuel + 1, n => if n < 10 then [0x30 + n] else natToDigits fuel (n / 10) ++ [0x30 + n % 10]

def padNum (w : Nat) (n : Int) : JSStr :=
  let ds := natToDigits (n.toNat + 1) n.toNat
  List.replicate (w - ds.length) 0x30 ++ ds

/-- `moment(x).format('YYYY-MM-DD')` for dates in the years 0–9999. -/
def fmtYMD (x : YMD) : JSStr :=
  padNum 4 x.y ++ [0x2D] ++ padNum 2 x.m ++ [0x2D] ++ padNum 2 x.d

/-! ## The Task entity -/

inductive TaskStatus
  | complete
  | incomplete
  | cancelled
  | inProgress
  | nonTask
deriving DecidableEq, Repr

structure Task where
  id : JSStr
  description : JSStr
  status : TaskStatus
  statusSymbol : JSStr
  filePath : JSStr
  lineNumber : Int
  tags : List JSStr
  dueDate : Option JSStr
  scheduledDate : Option JSStr
  createdDate : Option JSStr
  startDate : Option JSStr
  priority : Option JSStr
  recurrence : Option JSStr
  urgency : ℚ
  originalMarkdown : JSStr
deriving DecidableEq, Repr

/-! ## Urgency scorer

`calculateUrgency` in the source reads the clock (`moment()`) three
times.  The clock is modelled as the current civil day together with a
flag saying whether the time of day is strictly past midnight: for
day-granular due dates this is exactly what the truncating
`dueDate.diff(today, 'days')` depends on. -/

structure MomentNow where
  today : Int
  pastMidnight : Bool
deriving DecidableEq, Repr

/-- `moment(dueDate).diff(moment(), 'days')`: the real-valued day
difference truncated toward zero. `dd` is the civil day number of the
due date (midnight); for a future date a nonzero time of day lowers
the truncated difference by one. -/
def momentDiffDays (dd : Int) (now : MomentNow) : Int :=
  if now.today < dd ∧ now.pastMidnight then dd - now.today - 1 else dd - now.today

/-- The due-date urgency ladder of `calculateUrgency` as a function of
the truncated day difference (the long `if`/`else if` chain; the values
are the source's decimal literals written as rationals). -/
def dueChain (daysDiff : Int) : ℚ :=
  if daysDiff ≤ -7 then 12
  else if daysDiff = -7 then 12
  else if daysDiff = -6 then 1154286 / 100000
  else if daysDiff = -5 then 1108571 / 100000
  else if daysDiff = -4 then 1062857 / 100000
  else if daysDiff = -3 then 1017143 / 100000
  else if daysDiff = -2 then 971429 / 100000
  else if daysDiff = -1 then 925714 / 100000
  else if daysDiff = 0 then 88 / 10
  else if daysDiff = 1 then 834286 / 100000
  else if daysDiff = 2 then 788571 / 100000
  else if daysDiff = 3 then 742857 / 100000
  else if daysDiff = 4 then 697143 / 100000
  else if daysDiff = 5 then 651429 / 100000
  else if daysDiff = 6 then 605714 / 100000
  else if daysDiff = 7 then 56 / 10
  else if daysDiff = 8 then 514286 / 100000
  else if daysDiff = 9 then 468571 / 100000
  else if daysDiff = 10 then 422857 / 100000
  else if daysDiff = 11 then 377143 / 100000
  else if daysDiff = 12 then 331429 / 100000
  else if daysDiff = 13 then 285714 / 100000
  else if daysDiff = 14 then 24 / 10
  else if 14 < daysDiff then 24 / 10
  else 0

/-- Due-date component of `calculateUrgency` (the first `if` block). -/
def dueScore (now : MomentNow) (dueDate : Option JSStr) : ℚ :=
  match dueDate with
  | none => 0
  | some s =>
    match parseYMD s with
    | none => 0
    | some x => dueChain (momentDiffDays (civilToDays x) now)

/-- Priority component of `calculateUrgency` (the `switch` block; the
`default` arm covers both a missing priority and any other value). -/
def priorityScore (priority : Option JSStr) : ℚ :=
  if priority = some (jstr "highest") then 9
  else if priority = some (jstr "high") then 6
  else if priority = some (jstr "medium") then 39 / 10
  else if priority = some (jstr "low") then 0
  else if priority = some (jstr "lowest") then -18 / 10
  else 39 / 20

/-- Scheduled-date component (`isSameOrBefore(today, 'day')`). -/
def scheduledScore (now : MomentNow) (scheduledDate : Option JSStr) : ℚ :=
  match scheduledDate with
  | none => 0
  | some s =>
    match parseYMD s with
    | none => 0
    | some x => if civilToDays x ≤ now.today then 5 else 0

/-- Start-date component. -/
def startScore (now : MomentNow) (startDate : Option JSStr) : ℚ :=
  match startDate with
  | none => 0
  | some s =>
    match parseYMD s with
    | none => 0
    | some x => if civilToDays x ≤ now.today then 0 else -3

/-- `calculateUrgency`: the source accumulates the four component
scores into `urgencyScore` in sequence, which is their sum. -/
def calculateUrgency (now : MomentNow) (t : Task) : ℚ :=
  dueScore now t.dueDate + priorityScore t.priority +
    scheduledScore now t.scheduledDate + startScore now t.startDate

/-! ## TaskRegex: the line matcher (the `u`-flagged `taskRegex`) -/

def isHighSurrogate (c : Nat) : Bool := 0xD800 ≤ c && c ≤ 0xDBFF

def isLowSurrogate (c : Nat) : Bool := 0xDC00 ≤ c && c ≤ 0xDFFF

/-- `(.)` under the `u` flag: one code point (a surrogate pair when the
two halves are adjacent, otherwise a single unit), never a line
terminator. -/
def takePoint : JSStr → Option (JSStr × JSStr)
  | [] => none
  | c :: rest =>
    if isLineTerm c then none
    else if isHighSurrogate c then
      match rest with
      | c2 :: rest2 => if isLowSurrogate c2 then some ([c, c2], rest2) else some ([c], rest)
      | [] => some ([c], rest)
    else some ([c], rest)

/-- The `[\s\t>]` indentation class. -/
def isIndentUnit (c : Nat) : Bool := isJsWS c || c = 0x3E

/-- The `([-*+]|[0-9]+[.)])` list-marker alternation. -/
def matchListMarker : JSStr → Option (JSStr × JSStr)
  | [] => none
  | c :: rest =>
    if c = 0x2D ∨ c = 0x2A ∨ c = 0x2B then some ([c], rest)
    else
      let ds := (c :: rest).takeWhile isDigitU
      let r2 := (c :: rest).dropWhile isDigitU
      if ds.isEmpty then none
      else
        match r2 with
        | p :: r3 => if p = 0x2E ∨ p = 0x29 then some (ds ++ [p], r3) else none
        | [] => none

/-- The anchored `TaskRegex.taskRegex` match: indentation, list marker,
one or more spaces, `[`, one code point, `]`, optional spaces, then the
rest of the line up to the first line terminator (`/ *(.*)/u`).
Returns the indentation, the marker, the status character and the rest. -/
def matchTask (line : JSStr) : Option (JSStr × JSStr × JSStr × JSStr) :=
  match matchListMarker (line.dropWhile isIndentUnit) with
  | none => none
  | some (marker, r2) =>
    if (r2.takeWhile (fun c => c = 0x20)).isEmpty then none
    else
      match r2.dropWhile (fun c => c = 0x20) with
      | c :: r4 =>
        if c = 0x5B then
          match takePoint r4 with
          | none => none
          | some (sym, r5) =>
            match r5 with
            | c2 :: r6 =>
              if c2 = 0x5D then
                some (line.takeWhile isIndentUnit, marker, sym,
                  (r6.dropWhile (fun u => u = 0x20)).takeWhile (fun u => !isLineTerm u))
              else none
            | [] => none
        else none
      | [] => none

/-! ## TaskRegex: field extraction (patterns compiled without `u`) -/

/-- The complement of the hashtag exclusion class
`[^ !@#$%^&*(),.?":\x7b\x7d|<>]` (one code unit; only the ASCII space
is excluded, other whitespace units are legal tag units). -/
def isTagUnit (c : Nat) : Bool :=
  !(c = 0x20 || c = 0x21 || c = 0x40 || c = 0x23 || c = 0x24 || c = 0x25 ||
    c = 0x5E || c = 0x26 || c = 0x2A || c = 0x28 || c = 0x29 || c = 0x2C ||
    c = 0x2E || c = 0x3F || c = 0x22 || c = 0x3A || c = 0x7B || c = 0x7D ||
    c = 0x7C || c = 0x3C || c = 0x3E)

/-- Global scan of `TaskRegex.hashTags`; each returned element is the
raw `match[0]` (including the leading whitespace unit of the `(^|\s)`
group when that alternative fired). -/
def scanTagsFuel : Nat → JSStr → Bool → List JSStr
  | 0, _, _ => []
  | _ + 1, [], _ => []
  | fuel + 1, c :: rest, atStart =>
    if atStart ∧ c = 0x23 then
      let run := rest.takeWhile isTagUnit
      let r2 := rest.dropWhile isTagUnit
      if run.isEmpty then scanTagsFuel fuel rest false
      else (0x23 :: run) :: scanTagsFuel fuel r2 false
    else if isJsWS c then
      match rest with
      | c2 :: r1 =>
        if c2 = 0x23 then
          let run := r1.takeWhile isTagUnit
          let r2 := r1.dropWhile isTagUnit
          if run.isEmpty then scanTagsFuel fuel rest false
          else (c :: c2 :: run) :: scanTagsFuel fuel r2 false
        else scanTagsFuel fuel rest false
      | [] => []
    else scanTagsFuel fuel rest false

def scanTags (s : JSStr) : List JSStr := scanTagsFuel (s.length + 1) s true

/-- `\d{4}-\d{2}-\d{2}` at the head of the string. -/
def datePrefix (s : JSStr) : Option (JSStr × JSStr) :=
  match s with
  | a :: b :: c :: d :: h1 :: e :: f :: h2 :: g :: h :: rest =>
    if isDigitU a && isDigitU b && isDigitU c && isDigitU d && h1 = 0x2D &&
       isDigitU e && isDigitU f && h2 = 0x2D && isDigitU g && isDigitU h then
      some ([a, b, c, d, h1, e, f, h2, g, h], rest)
    else none
  | _ => none

/-- `\s?` (greedy, with backtracking) followed by a date capture. -/
def optWsDate (r : JSStr) : Option JSStr :=
  match r with
  | w :: r2 =>
    if isJsWS w then
      match datePrefix r2 with
      | some (dt, _) => some dt
      | none => (datePrefix r).map (fun p => p.1)
    else (datePrefix r).map (fun p => p.1)
  | [] => none

/-- Leftmost match of `X\s?(\d{4}-\d{2}-\d{2})` where `X` is a
one-unit character class; on failure at a position the scan advances by
one code unit, exactly as a regex without the `u` flag does. -/
def findDateAfterClass (cls : List Nat) : JSStr → Option JSStr
  | [] => none
  | c :: rest =>
    if cls.contains c then
      match optWsDate rest with
      | some dt => some dt
      | none => findDateAfterClass cls rest
    else findDateAfterClass cls rest

/-- Leftmost match of `X\s?(\d{4}-\d{2}-\d{2})` where `X` is a
literal unit sequence. -/
def findDateAfterSeq (seq : JSStr) : JSStr → Option JSStr
  | [] => none
  | c :: rest =>
    if seq.isPrefixOf (c :: rest) then
      match optWsDate ((c :: rest).drop seq.length) with
      | some dt => some dt
      | none => findDateAfterSeq seq rest
    else findDateAfterSeq seq rest

/-- `TaskRegex.dueDateRegex = /[📅🗓️]\s?(\d{4}-\d{2}-\d{2})/` without
the `u` flag: the class is the set of the code units appearing in it,
namely both halves of 📅, both halves of 🗓 and the lone variant
selector. -/
def findDueDate (s : JSStr) : Option JSStr :=
  findDateAfterClass [0xD83D, 0xDCC5, 0xDDD3, 0xFE0F] s

def findScheduledDate (s : JSStr) : Option JSStr := findDateAfterSeq [0x23F3] s

def findStartDate (s : JSStr) : Option JSStr := findDateAfterSeq [0xD83D, 0xDEEB] s

def findCreatedDate (s : JSStr) : Option JSStr := findDateAfterSeq [0x2795] s

/-! ## Priority markers -/

inductive PriorityMarker
  | triUp
  | dblUp
  | up
  | med
  | low
  | lowest
deriving DecidableEq, Repr

def markerUnits : PriorityMarker → JSStr
  | .triUp => [0xD83D, 0xDD3A]
  | .dblUp => [0x23EB, 0x23EB]
  | .up => [0x23EB]
  | .med => [0xD83D, 0xDD3C]
  | .low => [0xD83D, 0xDD3D]
  | .lowest => [0x23EC]

/-- One position of the scan for `/🔺|⏫⏫|⏫|🔼|🔽|⏬/g`, trying the
alternatives in their textual order. -/
def markerAt (s : JSStr) : Option PriorityMarker :=
  if (markerUnits .triUp).isPrefixOf s then some .triUp
  else if (markerUnits .dblUp).isPrefixOf s then some .dblUp
  else if (markerUnits .up).isPrefixOf s then some .up
  else if (markerUnits .med).isPrefixOf s then some .med
  else if (markerUnits .low).isPrefixOf s then some .low
  else if (markerUnits .lowest).isPrefixOf s then some .lowest
  else none

/-- The first (leftmost) priority marker, i.e. `priorityMatches[0]`. -/
def firstPriorityMarker : JSStr → Option PriorityMarker
  | [] => none
  | c :: rest =>
    match markerAt (c :: rest) with
    | some m => some m
    | none => firstPriorityMarker rest

/-- The marker-to-level mapping of `parseTaskLine`. -/
def priorityOfMarker : PriorityMarker → JSStr
  | .triUp => jstr "highest"
  | .dblUp => jstr "highest"
  | .up => jstr "high"
  | .med => jstr "medium"
  | .low => jstr "low"
  | .lowest => jstr "lowest"

/-! ## Recurrence text capture -/

/-- The code units of the class in `TaskRegex.recurrenceRegex`
(`[📅🗓️⏳🛫➕⏫🔼🔽⏬🔺#]` without the `u` flag). -/
def recurrenceClassUnits : List Nat :=
  [0xD83D, 0xDCC5, 0xDDD3, 0xFE0F, 0x23F3, 0xDEEB, 0x2795, 0x23EB,
   0xDD3C, 0xDD3D, 0x23EC, 0xDD3A, 0x23]

/-- The lookahead `(?=\s*[class]|$)`. -/
def recurrenceLookahead (rest : JSStr) : Bool :=
  rest.isEmpty ||
    (match rest.dropWhile isJsWS with
     | [] => false
     | c :: _ => recurrenceClassUnits.contains c)

/-- The lazy capture `([^class]+?)` followed by the lookahead: the
shortest non-empty run of units outside the class after which the
lookahead succeeds. -/
def lazyCapture : JSStr → Option JSStr
  | [] => none
  | c :: rest =>
    if recurrenceClassUnits.contains c then none
    else if recurrenceLookahead rest then some [c]
    else (lazyCapture rest).map (fun cap => c :: cap)

/-- `\s?` (greedy, with backtracking) followed by the lazy capture. -/
def matchRecurrenceAt (s : JSStr) : Option JSStr :=
  match s with
  | c :: rest =>
    if isJsWS c then
      match lazyCapture rest with
      | some cap => some cap
      | none => lazyCapture s
    else lazyCapture s
  | [] => none

/-- Leftmost match of `TaskRegex.recurrenceRegex`, scanning for the two
units of 🔁. -/
def findRecurrence : JSStr → Option JSStr
  | [] => none
  | c :: rest =>
    if [0xD83D, 0xDD01].isPrefixOf (c :: rest) then
      match matchRecurrenceAt ((c :: rest).drop 2) with
      | some cap => some cap
      | none => findRecurrence rest
    else findRecurrence rest

/-! ## parseTaskLine -/

/-- The status-character mapping of `parseTaskLine`. -/
def statusOfSymbol (sym : JSStr) : TaskStatus :=
  if sym = jstr "x" ∨ sym = jstr "X" then .complete
  else if sym = jstr "-" then .cancelled
  else if sym = jstr "/" then .inProgress
  else if sym = jstr " " ∨ sym = jstr ">" ∨ sym = jstr "<" then .incomplete
  else .nonTask

/-- Decimal rendering of a line number for the `${filePath}:${lineNumber}` id. -/
def intToUnits (n : Int) : JSStr :=
  if n < 0 then 0x2D :: natToDigits ((-n).toNat + 1) (-n).toNat
  else natToDigits (n.toNat + 1) n.toNat

/-- The task built by `parseTaskLine` from a successful `taskRegex`
match: `statusChar` is the third capture group, `rest` the fourth. -/
def mkParsedTask (now : MomentNow) (line : JSStr) (filePath : JSStr)
    (lineNumber : Int) (statusChar rest : JSStr) : Task :=
  let description := jsTrim rest
  let task : Task :=
    { id := filePath ++ [0x3A] ++ intToUnits lineNumber
      description := description
      status := statusOfSymbol statusChar
      statusSymbol := statusChar
      filePath := filePath
      lineNumber := lineNumber
      tags := ((scanTags description).map jsTrim).filter (fun t => !t.isEmpty)
      dueDate := findDueDate description
      scheduledDate := findScheduledDate description
      startDate := findStartDate description
      createdDate := findCreatedDate description
      priority := (firstPriorityMarker description).map priorityOfMarker
      recurrence := findRecurrence description
      urgency := 0
      originalMarkdown := line }
  { task with urgency := calculateUrgency now task }

/-- `parseTaskLine(line, filePath, lineNumber)`.  The clock is passed
explicitly because the urgency computed on the returned task reads it. -/
def parseTaskLine (now : MomentNow) (line : JSStr) (filePath : JSStr)
    (lineNumber : Int) : Option Task :=
  match matchTask line with
  | none => none
  | some (_, _, statusChar, rest) =>
    some (mkParsedTask now line filePath lineNumber statusChar rest)

/-! ## TaskSerializer -/

/-- `isSuffixOf`-based removal: `some` of the text before the suffix. -/
def stripSuffix (s suf : JSStr) : Option JSStr :=
  if suf.isSuffixOf s then some (s.take (s.length - suf.length)) else none

def priorityMarkerPoints : List JSStr :=
  [[0xD83D, 0xDD3A], [0x23EB], [0xD83D, 0xDD3C], [0xD83D, 0xDD3D], [0x23EC]]

/-- `TaskSerializer.priorityRegex = /([🔺⏫🔼🔽⏬])\uFE0F?$/u`:
leftmost match reaching the end is the marker point with an optional
trailing variant selector. -/
def stripPriorityEnd (s : JSStr) : Option JSStr :=
  priorityMarkerPoints.findSome? (fun m =>
    match stripSuffix s (m ++ [0xFE0F]) with
    | some pre => some pre
    | none => stripSuffix s m)

/-- Tail of an `emoji\uFE0F?\s*(\d{4}-\d{2}-\d{2})$` match after the
emoji has been consumed. -/
def emojiDateTail (r1 : JSStr) : Bool :=
  let chk : JSStr → Bool := fun r =>
    match datePrefix (r.dropWhile isJsWS) with
    | some (_, []) => true
    | _ => false
  match r1 with
  | 0xFE0F :: t => chk t || chk r1
  | _ => chk r1

/-- Leftmost match of `[emoji…]\uFE0F?\s*(\d{4}-\d{2}-\d{2})$` (a
`u`-flagged pattern, so each emoji is matched as its unit sequence);
returns the text before the match. -/
def stripEmojiDateEnd (seqs : List JSStr) (s : JSStr) : Option JSStr :=
  (List.range s.length).findSome? (fun i =>
    seqs.findSome? (fun sq =>
      if sq.isPrefixOf (s.drop i) && emojiDateTail ((s.drop i).drop sq.length) then
        some (s.take i)
      else none))

def dueSeqs : List JSStr := [[0xD83D, 0xDCC5], [0xD83D, 0xDCC6], [0xD83D, 0xDDD3]]

def scheduledSeqs : List JSStr := [[0x23F3], [0x231B]]

def startSeqs : List JSStr := [[0xD83D, 0xDEEB]]

def doneSeqs : List JSStr := [[0x2705]]

/-- The `[a-zA-Z0-9, !]` class of `TaskSerializer.recurrenceRegex`. -/
def isRecurTextUnit (c : Nat) : Bool :=
  (0x61 ≤ c && c ≤ 0x7A) || (0x41 ≤ c && c ≤ 0x5A) || (0x30 ≤ c && c ≤ 0x39) ||
  c = 0x2C || c = 0x20 || c = 0x21

/-- Tail of `🔁\uFE0F?\s*([a-zA-Z0-9, !]+)$` after the 🔁: since the
class itself contains the space, the greedy `\s*` backtracks, so the
match succeeds if after dropping SOME prefix of the whitespace run a
non-empty all-class suffix remains. -/
def recurTextTail (r1 : JSStr) : Bool :=
  let chk : JSStr → Bool := fun r =>
    (List.range ((r.takeWhile isJsWS).length + 1)).any (fun k =>
      !(r.drop k).isEmpty && (r.drop k).all isRecurTextUnit)
  match r1 with
  | 0xFE0F :: t => chk t || chk r1
  | _ => chk r1

/-- Leftmost match of `TaskSerializer.recurrenceRegex` reaching the
end; returns the text before the match. -/
def stripRecurrenceEnd (s : JSStr) : Option JSStr :=
  (List.range s.length).findSome? (fun i =>
    if [0xD83D, 0xDD01].isPrefixOf (s.drop i) && recurTextTail ((s.drop i).drop 2) then
      some (s.take i)
    else none)

/-- A `#`-run reaching the end of the string (at least one tag unit). -/
def hashRunToEnd : JSStr → Bool
  | 0x23 :: run => !run.isEmpty && run.all isTagUnit
  | _ => false

/-- Leftmost match of `TaskSerializer.hashTagRegex =
/(^|\s)#[tag]+$/u`; returns the text before the match together with
the whole `match[0]`. -/
def hashTagStripEnd (s : JSStr) : Option (JSStr × JSStr) :=
  (List.range s.length).findSome? (fun i =>
    if (i = 0 && hashRunToEnd (s.drop i)) ||
       (match s.drop i with
        | w :: rest => isJsWS w && hashRunToEnd rest
        | [] => false) then
      some (s.take i, s.drop i)
    else none)

/-- One iteration of the `while` loop of `extractCleanDescription`:
strip a trailing tag, priority, completion date, due date, scheduled
date, start date and recurrence, in this order, each followed by
`trim()`; returns the new description, the accumulated trailing tags
and whether anything matched. -/
def ecdStep (clean trailingTags : JSStr) : JSStr × JSStr × Bool :=
  let (c1, t1, m1) :=
    match hashTagStripEnd clean with
    | some (pre, matched) =>
      let tagName := jsTrim matched
      (jsTrim pre, if trailingTags.isEmpty then tagName else tagName ++ [0x20] ++ trailingTags, true)
    | none => (clean, trailingTags, false)
  let (c2, m2) :=
    match stripPriorityEnd c1 with
    | some pre => (jsTrim pre, true)
    | none => (c1, false)
  let (c3, m3) :=
    match stripEmojiDateEnd doneSeqs c2 with
    | some pre => (jsTrim pre, true)
    | none => (c2, false)
  let (c4, m4) :=
    match stripEmojiDateEnd dueSeqs c3 with
    | some pre => (jsTrim pre, true)
    | none => (c3, false)
  let (c5, m5) :=
    match stripEmojiDateEnd scheduledSeqs c4 with
    | some pre => (jsTrim pre, true)
    | none => (c4, false)
  let (c6, m6) :=
    match stripEmojiDateEnd startSeqs c5 with
    | some pre => (jsTrim pre, true)
    | none => (c5, false)
  let (c7, m7) :=
    match stripRecurrenceEnd c6 with
    | some pre => (jsTrim pre, true)
    | none => (c6, false)
  (c7, t1, m1 || m2 || m3 || m4 || m5 || m6 || m7)

/-- The bounded stripping loop (`maxRuns = 20`). -/
def ecdGo : Nat → JSStr → JSStr → JSStr × JSStr
  | 0, clean, tags => (clean, tags)
  | fuel + 1, clean, tags =>
    match ecdStep clean tags with
    | (c, t, true) => ecdGo fuel c t
    | (c, t, false) => (c, t)

/-- `TaskSerializer.extractCleanDescription`. -/
def extractCleanDescription (full : JSStr) : JSStr :=
  let (clean, tags) := ecdGo 20 full []
  if tags.isEmpty then clean else clean ++ [0x20] ++ tags

/-- `TaskSerializer.serialize`: clean description, then priority
emoji, recurrence, start date, scheduled date, due date in this fixed
order.  (`if (task.priority)` is truthy for every level string the
engine produces.) -/
def serialize (t : Task) : JSStr :=
  let clean := extractCleanDescription t.description
  let r1 :=
    match t.priority with
    | some p =>
      if p = jstr "highest" then clean ++ [0x20, 0xD83D, 0xDD3A]
      else if p = jstr "high" then clean ++ [0x20, 0x23EB]
      else if p = jstr "medium" then clean ++ [0x20, 0xD83D, 0xDD3C]
      else if p = jstr "low" then clean ++ [0x20, 0xD83D, 0xDD3D]
      else if p = jstr "lowest" then clean ++ [0x20, 0x23EC]
      else clean
    | none => clean
  let r2 :=
    match t.recurrence with
    | some rec => r1 ++ [0x20, 0xD83D, 0xDD01, 0x20] ++ rec
    | none => r1
  let r3 :=
    match t.startDate with
    | some d => r2 ++ [0x20, 0xD83D, 0xDEEB, 0x20] ++ d
    | none => r2
  let r4 :=
    match t.scheduledDate with
    | some d => r3 ++ [0x20, 0x23F3, 0x20] ++ d
    | none => r3
  match t.dueDate with
  | some d => r4 ++ [0x20, 0xD83D, 0xDCC5, 0x20] ++ d
  | none => r4

/-- `TaskSerializer.buildTaskLine`. -/
def buildTaskLine (t : Task) : JSStr :=
  jstr "- [" ++ t.statusSymbol ++ jstr "] " ++ serialize t

/-! ## RecurrenceUtils -/

structure ParsedRule where
  rule : JSStr
  whenDone : Bool
deriving DecidableEq, Repr

/-- `RecurrenceUtils.parseRecurrenceRule`: strip a trailing
`" when done"` (case-insensitive) and remember whether it was there. -/
def parseRecurrenceRule (rule : JSStr) : ParsedRule :=
  let trimmed := jsTrim rule
  let whenDone := (jstr " when done").isSuffixOf (jsToLower trimmed)
  let cleanRule :=
    if whenDone then jsTrim (trimmed.take (trimmed.length - (jstr " when done").length))
    else trimmed
  ⟨cleanRule, whenDone⟩

def stripPrefixU (pre s : JSStr) : Option JSStr :=
  if pre.isPrefixOf s then some (s.drop pre.length) else none

def natOfDigits (ds : List Nat) : Nat := ds.foldl (fun a c => a * 10 + (c - 0x30)) 0

/-- `^\d+ <unit>s?$` (after a prefix has been removed): digits, a
space, the singular unit word, an optional `s`, end. -/
def numUnitPrefixMatch (p unitSing : JSStr) : Option Int :=
  let ds := p.takeWhile isDigitU
  let r := p.dropWhile isDigitU
  if ds.isEmpty then none
  else
    match stripPrefixU ([0x20] ++ unitSing) r with
    | some r2 => if r2 = [] ∨ r2 = [0x73] then some (natOfDigits ds : Int) else none
    | none => none

inductive PatternClass
  | simple
  | complex
deriving DecidableEq, Repr

/-- `RecurrenceUtils.classifyPattern`: the eight fixed-interval shapes
are simple, everything else complex. -/
def classifyPattern (rule : JSStr) : PatternClass :=
  let lower := jsToLower rule
  if (numUnitPrefixMatch ((stripPrefixU (jstr "every ") lower).getD []) (jstr "day")).isSome
        ∧ (stripPrefixU (jstr "every ") lower).isSome then .simple
  else if lower = jstr "every day" then .simple
  else if (numUnitPrefixMatch ((stripPrefixU (jstr "every ") lower).getD []) (jstr "week")).isSome
        ∧ (stripPrefixU (jstr "every ") lower).isSome then .simple
  else if lower = jstr "every week" then .simple
  else if (numUnitPrefixMatch ((stripPrefixU (jstr "every ") lower).getD []) (jstr "month")).isSome
        ∧ (stripPrefixU (jstr "every ") lower).isSome then .simple
  else if lower = jstr "every month" then .simple
  else if (numUnitPrefixMatch ((stripPrefixU (jstr "every ") lower).getD []) (jstr "year")).isSome
        ∧ (stripPrefixU (jstr "every ") lower).isSome then .simple
  else if lower = jstr "every year" then .simple
  else .complex

inductive RUnit
  | days
  | weeks
  | months
  | years
deriving DecidableEq, Repr

structure SimplePattern where
  interval : Int
  unit : RUnit
deriving DecidableEq, Repr

/-- The unit-word alternation of `parseSimplePattern` (singular or
plural followed by the end of the string). -/
def unitOfWord (u : JSStr) : Option RUnit :=
  if u = jstr "day" ∨ u = jstr "days" then some .days
  else if u = jstr "week" ∨ u = jstr "weeks" then some .weeks
  else if u = jstr "month" ∨ u = jstr "months" then some .months
  else if u = jstr "year" ∨ u = jstr "years" then some .years
  else none

/-- `RecurrenceUtils.parseSimplePattern`:
`^every (?:(\d+) )?(days?|weeks?|months?|years?|day|week|month|year)$`,
`N` defaulting to 1. -/
def parseSimplePattern (rule : JSStr) : Option SimplePattern :=
  let lower := jsToLower rule
  match stripPrefixU (jstr "every ") lower with
  | none => none
  | some r =>
    let ds := r.takeWhile isDigitU
    let r2 := r.dropWhile isDigitU
    if !ds.isEmpty ∧ r2.head? = some 0x20 then
      match unitOfWord (r2.drop 1) with
      | some u => some ⟨(natOfDigits ds : Nat), u⟩
      | none => (unitOfWord r).map (fun u => ⟨1, u⟩)
    else (unitOfWord r).map (fun u => ⟨1, u⟩)

/-- The `while day > 0` loop of `ensureValidDate`, with the day count
as fuel; the fallback is day 1. -/
def ensureValidDateGo (y m : Int) : Nat → Int → YMD
  | 0, _ => ⟨y, m, 1⟩
  | fuel + 1, day =>
    if 0 < day then
      if day ≤ daysInMonth y m then ⟨y, m, day⟩
      else ensureValidDateGo y m fuel (day - 1)
    else ⟨y, m, 1⟩

/-- `RecurrenceUtils.ensureValidDate`: an already-valid date is
returned as is, otherwise the day is walked backwards to the first
valid one. -/
def ensureValidDate (x : YMD) : YMD :=
  if 1 ≤ x.d ∧ x.d ≤ daysInMonth x.y x.m then x
  else ensureValidDateGo x.y x.m (x.d.toNat + 1) x.d

/-- `RecurrenceUtils.calculateSimpleNextOccurrence`: add the interval
with moment arithmetic, then `ensureValidDate`. -/
def calculateSimpleNextOccurrence (p : SimplePattern) (referenceDate : YMD) : YMD :=
  let nextDate :=
    match p.unit with
    | .days => addDays referenceDate p.interval
    | .weeks => addDays referenceDate (7 * p.interval)
    | .months => momentAddMonths referenceDate p.interval
    | .years => momentAddMonths referenceDate (12 * p.interval)
  ensureValidDate nextDate

/-- `RecurrenceUtils.getReferenceDate`: due, then scheduled, then
start, skipping fields that are absent or do not parse. -/
def getReferenceDate (t : Task) : Option YMD :=
  match t.dueDate.bind parseYMD with
  | some d => some d
  | none =>
    match t.scheduledDate.bind parseYMD with
    | some d => some d
    | none => t.startDate.bind parseYMD

inductive DateField
  | dueDate
  | scheduledDate
  | startDate
deriving DecidableEq, Repr

/-- `RecurrenceUtils.getPrimaryDateField` (due > scheduled > start). -/
def getPrimaryDateField (t : Task) : Option DateField :=
  if t.dueDate.isSome then some .dueDate
  else if t.scheduledDate.isSome then some .scheduledDate
  else if t.startDate.isSome then some .startDate
  else none

/-- `RecurrenceUtils.getDateFromTask`. -/
def getDateFromTask (t : Task) (f : Option DateField) : Option YMD :=
  match f with
  | none => none
  | some .dueDate => t.dueDate.bind parseYMD
  | some .scheduledDate => t.scheduledDate.bind parseYMD
  | some .startDate => t.startDate.bind parseYMD

/-! ## The rrule bridge -/

inductive Weekday
  | su
  | mo
  | tu
  | we
  | th
  | fr
  | sa
deriving DecidableEq, Repr

inductive RFreq
  | daily
  | weekly
  | monthly
  | yearly
deriving DecidableEq, Repr

/-- The options record handed to the rrule library: frequency,
interval, weekday set (with an optional "nth" ordinal), month days,
months and the start date. -/
structure RRuleSpec where
  freq : RFreq
  interval : Int
  byweekday : List (Weekday × Option Int)
  bymonthday : List Int
  bymonth : List Int
  dtstart : YMD
deriving DecidableEq, Repr

def weekdayOfName (s : JSStr) : Option Weekday :=
  if s = jstr "sunday" then some .su
  else if s = jstr "monday" then some .mo
  else if s = jstr "tuesday" then some .tu
  else if s = jstr "wednesday" then some .we
  else if s = jstr "thursday" then some .th
  else if s = jstr "friday" then some .fr
  else if s = jstr "saturday" then some .sa
  else none

/-- The inline weekday-list helper of `obsidianToRRule`: lowercase,
split on commas, trim, drop unknown names. -/
def parseWeekdaysInline (s : JSStr) : List Weekday :=
  ((jsSplit (jsToLower s) [0x2C]).map jsTrim).filterMap weekdayOfName

/-- `^(\d+) weeks? on (.+)$`. -/
def weeksOnMatch (p : JSStr) : Option (Int × JSStr) :=
  let ds := p.takeWhile isDigitU
  let r := p.dropWhile isDigitU
  if ds.isEmpty then none
  else
    match stripPrefixU (jstr " week") r with
    | none => none
    | some r2 =>
      let r3 := match stripPrefixU (jstr "s") r2 with | some x => x | none => r2
      match stripPrefixU (jstr " on ") r3 with
      | none => none
      | some rest =>
        if !rest.isEmpty ∧ rest.all (fun c => !isLineTerm c) then
          some ((natOfDigits ds : Nat), rest)
        else none

/-- `^month on the \d+(?:st|nd|rd|th)$`, extracting the digits. -/
def monthOnTheNth (p : JSStr) : Option Int :=
  match stripPrefixU (jstr "month on the ") p with
  | none => none
  | some r =>
    let ds := r.takeWhile isDigitU
    let r2 := r.dropWhile isDigitU
    if ds.isEmpty then none
    else if r2 = jstr "st" ∨ r2 = jstr "nd" ∨ r2 = jstr "rd" ∨ r2 = jstr "th" then
      some (natOfDigits ds : Nat)
    else none

def monthOfName (s : JSStr) : Option Int :=
  if s = jstr "january" then some 1
  else if s = jstr "february" then some 2
  else if s = jstr "march" then some 3
  else if s = jstr "april" then some 4
  else if s = jstr "may" then some 5
  else if s = jstr "june" then some 6
  else if s = jstr "july" then some 7
  else if s = jstr "august" then some 8
  else if s = jstr "september" then some 9
  else if s = jstr "october" then some 10
  else if s = jstr "november" then some 11
  else if s = jstr "december" then some 12
  else none

/-- `^(january|…|december) on the (\d+)(?:st|nd|rd|th)?$`. -/
def monthNames : List (JSStr × Int) :=
  [(jstr "january", 1), (jstr "february", 2), (jstr "march", 3), (jstr "april", 4),
   (jstr "may", 5), (jstr "june", 6), (jstr "july", 7), (jstr "august", 8),
   (jstr "september", 9), (jstr "october", 10), (jstr "november", 11), (jstr "december", 12)]

/-- The yearly month-name shape of `obsidianToRRule`:
`^(january|february|…|december) on the (\\d+)(?:st|nd|rd|th)?$`. -/
def yearlyMonthDayMatch (p : JSStr) : Option (Int × Int) :=
  monthNames.findSome? (fun q =>
    match stripPrefixU (q.1 ++ jstr " on the ") p with
    | none => none
    | some r =>
      let ds := r.takeWhile isDigitU
      let r2 := r.dropWhile isDigitU
      if ds.isEmpty then none
      else if r2 = [] ∨ r2 = jstr "st" ∨ r2 = jstr "nd" ∨ r2 = jstr "rd" ∨ r2 = jstr "th" then
        some (q.2, (natOfDigits ds : Nat))
      else none)

/-- The weekly-with-specific-days branch of `obsidianToRRule`:
interval and weekday list when the branch is entered; the weekday list
is empty when neither inner shape matched, in which case the source
falls through to the monthly branches. -/
def weeklyOnDays (pattern : JSStr) : Option (Int × List Weekday) :=
  if jsIncludes pattern (jstr " on ") &&
      (jsIncludes pattern (jstr "week") || jsIncludes pattern (jstr "weeks")) then
    match weeksOnMatch pattern with
    | some q => some (q.1, parseWeekdaysInline q.2)
    | none =>
      match stripPrefixU (jstr "week on ") pattern with
      | some daysPart => some (1, parseWeekdaysInline daysPart)
      | none => some (1, [])
  else none

/-- `obsidianToRRule`: translate the supported rule shapes into an
rrule options record, in the source's branch order; unsupported text
gives `none`.  (The debug logging of the source is pure I/O and is
omitted.) -/
def obsidianToRRule (rule : JSStr) (referenceDate : YMD) : Option RRuleSpec :=
  let lower := jsToLower rule
  match stripPrefixU (jstr "every ") lower with
  | none => none
  | some pattern =>
    if pattern = jstr "day" then
      some ⟨.daily, 1, [], [], [], referenceDate⟩
    else if (numUnitPrefixMatch pattern (jstr "day")).isSome then
      some ⟨.daily, (numUnitPrefixMatch pattern (jstr "day")).getD 1, [], [], [], referenceDate⟩
    else if pattern = jstr "week" then
      some ⟨.weekly, 1, [], [], [], referenceDate⟩
    else if pattern = jstr "weekday" then
      some ⟨.weekly, 1, [(.mo, none), (.tu, none), (.we, none), (.th, none), (.fr, none)],
        [], [], referenceDate⟩
    else if (numUnitPrefixMatch pattern (jstr "week")).isSome then
      some ⟨.weekly, (numUnitPrefixMatch pattern (jstr "week")).getD 1, [], [], [], referenceDate⟩
    else if ((weeklyOnDays pattern).map (fun q => !q.2.isEmpty)).getD false then
      match weeklyOnDays pattern with
      | some q =>
        some ⟨.weekly, q.1, q.2.map (fun w => (w, none)), [], [], referenceDate⟩
      | none => none
    else if pattern = jstr "month" then
      some ⟨.monthly, 1, [], [], [], referenceDate⟩
    else if (numUnitPrefixMatch pattern (jstr "month")).isSome then
      some ⟨.monthly, (numUnitPrefixMatch pattern (jstr "month")).getD 1, [], [], [],
        referenceDate⟩
    else if pattern = jstr "month on the last" then
      some ⟨.monthly, 1, [], [-1], [], referenceDate⟩
    else if (monthOnTheNth pattern).isSome then
      some ⟨.monthly, 1, [], [(monthOnTheNth pattern).getD 1], [], referenceDate⟩
    else if (match stripPrefixU (jstr "month on the last ") pattern with
             | some r => (weekdayOfName r).isSome
             | none => false) then
      match stripPrefixU (jstr "month on the last ") pattern with
      | some r =>
        (weekdayOfName r).map (fun w => ⟨.monthly, 1, [(w, some (-1))], [], [], referenceDate⟩)
      | none => none
    else if (match stripPrefixU (jstr "month on the 2nd last ") pattern with
             | some r => (weekdayOfName r).isSome
             | none => false) then
      match stripPrefixU (jstr "month on the 2nd last ") pattern with
      | some r =>
        (weekdayOfName r).map (fun w => ⟨.monthly, 1, [(w, some (-2))], [], [], referenceDate⟩)
      | none => none
    else if pattern = jstr "year" then
      some ⟨.yearly, 1, [], [], [], referenceDate⟩
    else
      match yearlyMonthDayMatch pattern with
      | some q => some ⟨.yearly, 1, [], [q.2], [q.1], referenceDate⟩
      | none => none

/-! ## calculateNextOccurrence -/

/-- `moment(other).diff(moment(primary), 'days')` applied to `nextDate`
with `ensureValidDate` and formatting, as done for the secondary date
fields in the "when done" branches; an unparseable operand propagates
moment's `NaN` chain, which formats as `"Invalid date"`. -/
def offsetShift (nextDate : YMD) (otherStr primaryStr : Option JSStr) : JSStr :=
  match otherStr.bind parseYMD, primaryStr.bind parseYMD with
  | some o, some p =>
    fmtYMD (ensureValidDate (addDays nextDate (civilToDays o - civilToDays p)))
  | _, _ => jstr "Invalid date"

/-- `moment(str).add(daysDiff, 'days')` with `ensureValidDate` and
formatting, as done for every date field in the original-date branch. -/
def shiftDate (str : JSStr) (daysDiff : Int) : JSStr :=
  match parseYMD str with
  | some d => fmtYMD (ensureValidDate (addDays d daysDiff))
  | none => jstr "Invalid date"

/-- `RecurrenceUtils.buildTaskMarkdown` (same template as
`TaskSerializer.buildTaskLine`). -/
def buildTaskMarkdown (t : Task) : JSStr :=
  jstr "- [" ++ t.statusSymbol ++ jstr "] " ++ serialize t

/-- The base of the successor task: copy of the original with a shifted
id, incomplete status and a cleared markdown. -/
def mkNextBase (task : Task) : Task :=
  { task with
    id := task.filePath ++ [0x3A] ++ intToUnits (task.lineNumber + 1)
    status := .incomplete
    statusSymbol := jstr " "
    originalMarkdown := [] }

/-- "When done", primary field due: set the due date to the next date
and keep the day offsets of the other present date fields. -/
def whenDoneDueBranch (task base : Task) (nextDate : YMD) : Task :=
  let t1 : Task := { base with dueDate := some (fmtYMD nextDate) }
  let t2 : Task :=
    if task.scheduledDate.isSome ∧ task.dueDate.isSome then
      { t1 with scheduledDate := some (offsetShift nextDate task.scheduledDate task.dueDate) }
    else t1
  if task.startDate.isSome ∧ task.dueDate.isSome then
    { t2 with startDate := some (offsetShift nextDate task.startDate task.dueDate) }
  else t2

/-- "When done", primary field scheduled. -/
def whenDoneSchedBranch (task base : Task) (nextDate : YMD) : Task :=
  let t1 : Task := { base with scheduledDate := some (fmtYMD nextDate) }
  let t2 : Task :=
    if task.dueDate.isSome ∧ task.scheduledDate.isSome then
      { t1 with dueDate := some (offsetShift nextDate task.dueDate task.scheduledDate) }
    else t1
  if task.startDate.isSome ∧ task.scheduledDate.isSome then
    { t2 with startDate := some (offsetShift nextDate task.startDate task.scheduledDate) }
  else t2

/-- "When done", primary field start. -/
def whenDoneStartBranch (task base : Task) (nextDate : YMD) : Task :=
  let t1 : Task := { base with startDate := some (fmtYMD nextDate) }
  let t2 : Task :=
    if task.dueDate.isSome ∧ task.startDate.isSome then
      { t1 with dueDate := some (offsetShift nextDate task.dueDate task.startDate) }
    else t1
  if task.scheduledDate.isSome ∧ task.startDate.isSome then
    { t2 with scheduledDate := some (offsetShift nextDate task.scheduledDate task.startDate) }
  else t2

/-- Date updates of the successor in the "when done" case: the primary
field is set to the next date and each other present date field keeps
its day offset relative to the original primary date; without any date
field the next date becomes the due date. -/
def whenDoneDates (task base : Task) (nextDate : YMD) : Task :=
  match getPrimaryDateField task with
  | some .dueDate => whenDoneDueBranch task base nextDate
  | some .scheduledDate => whenDoneSchedBranch task base nextDate
  | some .startDate => whenDoneStartBranch task base nextDate
  | none => { base with dueDate := some (fmtYMD nextDate) }

/-- Original-date case with a primary date present: apply the day
delta to every present date field. -/
def originalShiftBranch (task base : Task) (daysDiff : Int) : Task :=
  let t1 : Task :=
    if task.dueDate.isSome then
      { base with dueDate := some (shiftDate (task.dueDate.getD []) daysDiff) }
    else base
  let t2 : Task :=
    if task.scheduledDate.isSome then
      { t1 with scheduledDate := some (shiftDate (task.scheduledDate.getD []) daysDiff) }
    else t1
  if task.startDate.isSome then
    { t2 with startDate := some (shiftDate (task.startDate.getD []) daysDiff) }
  else t2

/-- Date updates of the successor in the original-date case: the day
delta between the next date and the original primary date is applied
to every present date field; without a primary date the next date
becomes the due date. -/
def originalDates (task base : Task) (nextDate : YMD) : Task :=
  match getDateFromTask task (getPrimaryDateField task) with
  | some originalPrimaryDate =>
    originalShiftBranch task base (civilToDays nextDate - civilToDays originalPrimaryDate)
  | none => { base with dueDate := some (fmtYMD nextDate) }

/-- The successor task built by `calculateNextOccurrence` once the next
date is known: date updates, cleared created date, fresh urgency and
re-serialized markdown. -/
def mkNextTask (now : MomentNow) (task : Task) (completionDate : Option YMD)
    (pr : ParsedRule) (nextDate : YMD) : Task :=
  let withDates : Task :=
    if pr.whenDone ∧ completionDate.isSome then whenDoneDates task (mkNextBase task) nextDate
    else originalDates task (mkNextBase task) nextDate
  let cleared : Task := { withDates with createdDate := none }
  let withUrgency : Task := { cleared with urgency := calculateUrgency now cleared }
  { withUrgency with originalMarkdown := buildTaskMarkdown withUrgency }

/-- The raw next date: simple rules use moment arithmetic, complex
rules go through the rrule bridge and the injected `after`. -/
def nextDateOf (after : RRuleSpec → YMD → Option YMD) (rule : JSStr)
    (referenceDate : YMD) : Option YMD :=
  if classifyPattern rule = .simple then
    (parseSimplePattern rule).map (fun p => calculateSimpleNextOccurrence p referenceDate)
  else
    match obsidianToRRule rule referenceDate with
    | none => none
    | some rr => after rr referenceDate

/-- `calculateNextOccurrence` once the recurrence text is known. -/
def calcNextFromRec (now : MomentNow) (after : RRuleSpec → YMD → Option YMD)
    (task : Task) (completionDate : Option YMD) (recText : JSStr) : Option Task :=
  match (if (parseRecurrenceRule recText).whenDone ∧ completionDate.isSome
         then completionDate else getReferenceDate task) with
  | none => none
  | some referenceDate =>
    match nextDateOf after (parseRecurrenceRule recText).rule referenceDate with
    | none => none
    | some nextDate =>
      some (mkNextTask now task completionDate (parseRecurrenceRule recText) nextDate)

/-- `RecurrenceUtils.calculateNextOccurrence`.  The clock is passed
explicitly (the successor's urgency reads it), and the rrule library's
`RRule.after` is an injected parameter `after`; everything reachable
from a simple rule never consults it.  All `moment(...).format` and
`moment.utc(...).format` calls are modelled at day granularity. -/
def calculateNextOccurrence (now : MomentNow) (after : RRuleSpec → YMD → Option YMD)
    (task : Task) (completionDate : Option YMD) : Option Task :=
  match task.recurrence with
  | none => none
  | some recText => calcNextFromRec now after task completionDate recText

/-! ## Concrete instances used by witnesses and counterexamples -/

/-- A task with a due date and nothing else, for the urgency theorems. -/
def dueOnlyTask : Task :=
  { id := jstr "f.md:1", description := jstr "x", status := TaskStatus.incomplete,
    statusSymbol := jstr " ", filePath := jstr "f.md", lineNumber := 1, tags := [],
    dueDate := some (jstr "2020-01-10"), scheduledDate := none, createdDate := none,
    startDate := none, priority := none, recurrence := none, urgency := 0,
    originalMarkdown := jstr "- [ ] x" }

/-- A task with no dates, no priority and no tags. -/
def bareTask : Task :=
  { id := jstr "f.md:1", description := jstr "x", status := TaskStatus.incomplete,
    statusSymbol := jstr " ", filePath := jstr "f.md", lineNumber := 1, tags := [],
    dueDate := none, scheduledDate := none, createdDate := none,
    startDate := none, priority := none, recurrence := none, urgency := 0,
    originalMarkdown := jstr "- [ ] x" }

/-- The clock on 2020-01-10 at midnight. -/
def now20200110 : MomentNow := { today := civilToDays ⟨2020, 1, 10⟩, pastMidnight := false }

/-- The clock 100 days after `now20200110`. -/
def nowLater : MomentNow := { today := civilToDays ⟨2020, 1, 10⟩ + 100, pastMidnight := false }

/-- A task whose due date is the leap day 2024-02-29 with rule
`every year`. -/
def leapYearTask : Task :=
  { id := jstr "f.md:1", description := jstr "x", status := TaskStatus.incomplete,
    statusSymbol := jstr " ", filePath := jstr "f.md", lineNumber := 1, tags := [],
    dueDate := some (jstr "2024-02-29"), scheduledDate := none, createdDate := none,
    startDate := none, priority := none, recurrence := some (jstr "every year"),
    urgency := 0, originalMarkdown := jstr "- [ ] x" }

/-- A task due on a month end 2025-01-31 with rule `every month`. -/
def monthEndTask : Task :=
  { id := jstr "f.md:1", description := jstr "x", status := TaskStatus.incomplete,
    statusSymbol := jstr " ", filePath := jstr "f.md", lineNumber := 1, tags := [],
    dueDate := some (jstr "2025-01-31"), scheduledDate := none, createdDate := none,
    startDate := none, priority := none, recurrence := some (jstr "every month"),
    urgency := 0, originalMarkdown := jstr "- [ ] x" }

/-- A task due 2025-08-05 recurring `every day when done`. -/
def dailyWhenDoneTask : Task :=
  { id := jstr "f.md:1", description := jstr "x", status := TaskStatus.incomplete,
    statusSymbol := jstr " ", filePath := jstr "f.md", lineNumber := 1, tags := [],
    dueDate := some (jstr "2025-08-05"), scheduledDate := none, createdDate := none,
    startDate := none, priority := none, recurrence := some (jstr "every day when done"),
    urgency := 0, originalMarkdown := jstr "- [ ] x" }

/-- A task due 2025-08-05 recurring `every day`. -/
def dailyTask : Task :=
  { id := jstr "f.md:1", description := jstr "x", status := TaskStatus.incomplete,
    statusSymbol := jstr " ", filePath := jstr "f.md", lineNumber := 1, tags := [],
    dueDate := some (jstr "2025-08-05"), scheduledDate := none, createdDate := none,
    startDate := none, priority := none, recurrence := some (jstr "every day"),
    urgency := 0, originalMarkdown := jstr "- [ ] x" }

/-- A rule-expansion oracle that never finds an occurrence, usable in
witnesses: no simple-rule path consults it. -/
def noneAfter : RRuleSpec → YMD → Option YMD := fun _ _ => none

/-! ## completeTask

The pure core of `completeTask`: the file has been read and split on
newlines and the task id already resolved to `filePath` and
`lineNumber`; the clock readings (`moment(completionDate)` and the
normalized completion date) are injected as `today` and `todayYMD`, and
the rrule library as `after`.  The returned `lines` stand for the
content written back. -/

structure CompleteResult where
  success : Bool
  message : JSStr
  lines : List JSStr
deriving DecidableEq, Repr

/-- `originalLine.replace(TaskRegex.checkboxRegex, "[x]")`: the leftmost
`\[(.)\]` match (with the `u` flag, `.` is one code point and no line
terminator) replaced by `[x]`. -/
def replaceCheckbox : JSStr → JSStr
  | [] => []
  | c :: t =>
    if c = 0x5B then
      match takePoint t with
      | some (_, rest) =>
        match rest with
        | 0x5D :: r2 => 0x5B :: 0x78 :: 0x5D :: r2
        | _ => c :: replaceCheckbox t
      | none => c :: replaceCheckbox t
    else c :: replaceCheckbox t

/-- The status replacement plus the conditional completion stamp: the
`✅` test runs on the line after the checkbox replacement. -/
def completionLine (today originalLine : JSStr) : JSStr :=
  let u := replaceCheckbox originalLine
  if jsIncludes u (jstr "✅") then u else u ++ (jstr " ✅ " ++ today)

def completeMsg (originalLine updatedLine : JSStr) : JSStr :=
  jstr "Task completed successfully. Updated: " ++ originalLine ++
    jstr " -> " ++ updatedLine

def skipNoteStr : JSStr :=
  jstr "\nNote: Could not calculate next occurrence for recurring task (check recurrence rule)"

/-- Indentation fix applied to the successor line
(`TaskRegex.indentationRegex` on the original line; `^[\s\t>]*`
stripped from the new line when it does not already start with the
original indentation). -/
def fixIndentation (originalLine newTaskLine : JSStr) : JSStr :=
  let indentation := originalLine.takeWhile isIndentUnit
  if !indentation.isEmpty && !indentation.isPrefixOf newTaskLine then
    indentation ++ newTaskLine.dropWhile isIndentUnit
  else newTaskLine

/-- `lines.splice(i, 0, x)`. -/
def insertAt (l : List JSStr) (i : Nat) (x : JSStr) : List JSStr :=
  l.take i ++ x :: l.drop i

/-- The recurring-task branch of `completeTask`. -/
def completeRecur (now : MomentNow) (after : RRuleSpec → YMD → Option YMD)
    (lines : List JSStr) (targetLineIndex : Nat) (originalLine today : JSStr)
    (todayYMD : YMD) (task : Task) : CompleteResult :=
  match calculateNextOccurrence now after task (some todayYMD) with
  | some nextOccurrence =>
    ⟨true,
      completeMsg originalLine (completionLine today originalLine) ++
        jstr "\nCreated next recurring task: " ++
        fixIndentation originalLine nextOccurrence.originalMarkdown,
      insertAt (lines.set targetLineIndex (completionLine today originalLine))
        (targetLineIndex + 1) (fixIndentation originalLine nextOccurrence.originalMarkdown)⟩
  | none =>
    ⟨true, completeMsg originalLine (completionLine today originalLine) ++ skipNoteStr,
      lines.set targetLineIndex (completionLine today originalLine)⟩

/-- `completeTask` after the already-completed check: the target line is
rewritten, then the recurrence logic runs only when `task.recurrence` is
truthy (present and non-empty). -/
def completeActive (now : MomentNow) (after : RRuleSpec → YMD → Option YMD)
    (lines : List JSStr) (targetLineIndex : Nat) (originalLine today : JSStr)
    (todayYMD : YMD) (task : Task) : CompleteResult :=
  if (task.recurrence.getD []).isEmpty then
    ⟨true, completeMsg originalLine (completionLine today originalLine),
      lines.set targetLineIndex (completionLine today originalLine)⟩
  else completeRecur now after lines targetLineIndex originalLine today todayYMD task

/-- `completeTask` once the line parses as a task. -/
def completeParsed (now : MomentNow) (after : RRuleSpec → YMD → Option YMD)
    (lines : List JSStr) (targetLineIndex : Nat) (originalLine today : JSStr)
    (todayYMD : YMD) (task : Task) : CompleteResult :=
  if task.status = TaskStatus.complete then
    ⟨false, jstr "Task is already completed: " ++ originalLine, lines⟩
  else completeActive now after lines targetLineIndex originalLine today todayYMD task

/-- The pure core of `completeTask` (file IO and task-id parsing are the
shell around it). -/
def completeTaskCore (now : MomentNow) (after : RRuleSpec → YMD → Option YMD)
    (filePath : JSStr) (lines : List JSStr) (lineNumber : Int)
    (today : JSStr) (todayYMD : YMD) : CompleteResult :=
  if lineNumber < 1 ∨ (lines.length : Int) < lineNumber then
    ⟨false, jstr "Line number " ++ intToUnits lineNumber ++
      jstr " is out of range for file with " ++ intToUnits (lines.length : Int) ++
      jstr " lines", lines⟩
  else
    match parseTaskLine now (lines.getD (lineNumber - 1).toNat []) filePath lineNumber with
    | none => ⟨false, jstr "Line " ++ intToUnits lineNumber ++
        jstr " is not a valid task: " ++ lines.getD (lineNumber - 1).toNat [], lines⟩
    | some task => completeParsed now after lines (lineNumber - 1).toNat
        (lines.getD (lineNumber - 1).toNat []) today todayYMD task

/-- A task line whose recurrence text `every foo` no interpreter
accepts, for the non-fatal-recurrence-failure witness. -/
def unparseableRecLine : JSStr := jstr "- [ ] water plants 🔁 every foo"

def unparseableRecTask : Task :=
  (parseTaskLine ⟨0, false⟩ unparseableRecLine (jstr "f.md") 1).getD bareTask

/-- A line whose checkbox holds the completion marker itself, for the
stamp-suppression counterexample. -/
def statusCheckLine : JSStr := jstr "- [✅] t"

/-- A plain parsed task line with no recurrence and no ✅, for the
stamp witness. -/
def plainLine : JSStr := jstr "- [ ] write report"

def plainLineTask : Task :=
  (parseTaskLine ⟨0, false⟩ plainLine (jstr "f.md") 1).getD bareTask

/-! ## Query engine -/

/-- JavaScript string `<` (code-unit lexicographic comparison). -/
def jsLtStr : JSStr → JSStr → Bool
  | [], [] => false
  | [], _ :: _ => true
  | _ :: _, [] => false
  | a :: s, b :: t => if a < b then true else if b < a then false else jsLtStr s t

/-- One or more `\s` units (the regex `\s+`), greedily; the callers
follow it with a non-whitespace pattern, so greediness is exact. -/
def wsRun1 (s : JSStr) : Option JSStr :=
  match s with
  | c :: t => if isJsWS c then some (t.dropWhile isJsWS) else none
  | [] => none

/-- `(\d{4}-\d{2}-\d{2})$`: the captured date at end of input. -/
def dateArgEnd (s : JSStr) : Option JSStr :=
  match s with
  | [a, b, c, d, 0x2D, e, f, 0x2D, g, h] =>
    if isDigitU a && isDigitU b && isDigitU c && isDigitU d && isDigitU e &&
        isDigitU f && isDigitU g && isDigitU h then some s else none
  | _ => none

/-- `\s+(?:on\s+)?(date)$` with the regex backtracking on the optional
`on` group, applied to the text after the keyword. -/
def dateOnArg (s : JSStr) : Option JSStr :=
  match wsRun1 s with
  | none => none
  | some rest =>
    match rest with
    | 0x6F :: 0x6E :: r2 =>
      match wsRun1 r2 with
      | some r3 =>
        match dateArgEnd r3 with
        | some d => some d
        | none => dateArgEnd rest
      | none => dateArgEnd rest
    | _ => dateArgEnd rest

/-- `\s+word\s+(date)$` applied to the text after the keyword. -/
def dateWordArg (word : JSStr) (s : JSStr) : Option JSStr :=
  match wsRun1 s with
  | none => none
  | some rest =>
    if word.isPrefixOf rest then
      match wsRun1 (rest.drop word.length) with
      | some r2 => dateArgEnd r2
      | none => none
    else none

/-- The due-date filter block; `none` falls through to the next block. -/
def dueFilterBlock (today : JSStr) (task : Task) (filter : JSStr) : Option Bool :=
  if (jstr "due").isPrefixOf filter ∨ filter = jstr "has due date" ∨
      filter = jstr "no due date" then
    if filter = jstr "due today" then some (decide (task.dueDate = some today))
    else if filter = jstr "due before today" then
      some (task.dueDate.isSome && jsLtStr (task.dueDate.getD []) today)
    else if filter = jstr "due after today" then
      some (task.dueDate.isSome && jsLtStr today (task.dueDate.getD []))
    else if filter = jstr "no due date" then some task.dueDate.isNone
    else if filter = jstr "has due date" then some task.dueDate.isSome
    else
      match dateOnArg (filter.drop 3) with
      | some targetDate => some (decide (task.dueDate = some targetDate))
      | none =>
      match dateWordArg (jstr "before") (filter.drop 3) with
      | some targetDate =>
        some (task.dueDate.isSome && jsLtStr (task.dueDate.getD []) targetDate)
      | none =>
      match dateWordArg (jstr "after") (filter.drop 3) with
      | some targetDate =>
        some (task.dueDate.isSome && jsLtStr targetDate (task.dueDate.getD []))
      | none => none
  else none

/-- The scheduled-date filter block. -/
def scheduledFilterBlock (today : JSStr) (task : Task) (filter : JSStr) : Option Bool :=
  if (jstr "scheduled").isPrefixOf filter ∨ filter = jstr "has scheduled date" ∨
      filter = jstr "no scheduled date" then
    if filter = jstr "scheduled today" then
      some (decide (task.scheduledDate = some today))
    else if filter = jstr "scheduled before today" then
      some (task.scheduledDate.isSome && jsLtStr (task.scheduledDate.getD []) today)
    else if filter = jstr "scheduled after today" then
      some (task.scheduledDate.isSome && jsLtStr today (task.scheduledDate.getD []))
    else if filter = jstr "no scheduled date" then some task.scheduledDate.isNone
    else if filter = jstr "has scheduled date" then some task.scheduledDate.isSome
    else
      match dateOnArg (filter.drop 9) with
      | some targetDate => some (decide (task.scheduledDate = some targetDate))
      | none =>
      match dateWordArg (jstr "before") (filter.drop 9) with
      | some targetDate =>
        some (task.scheduledDate.isSome &&
          jsLtStr (task.scheduledDate.getD []) targetDate)
      | none =>
      match dateWordArg (jstr "after") (filter.drop 9) with
      | some targetDate =>
        some (task.scheduledDate.isSome &&
          jsLtStr targetDate (task.scheduledDate.getD []))
      | none => none
  else none

/-- The start-date filter block. -/
def startsFilterBlock (today : JSStr) (task : Task) (filter : JSStr) : Option Bool :=
  if (jstr "starts").isPrefixOf filter ∨ filter = jstr "has start date" ∨
      filter = jstr "no start date" then
    if filter = jstr "starts today" then some (decide (task.startDate = some today))
    else if filter = jstr "starts before today" then
      some (task.startDate.isSome && jsLtStr (task.startDate.getD []) today)
    else if filter = jstr "starts after today" then
      some (task.startDate.isSome && jsLtStr today (task.startDate.getD []))
    else if filter = jstr "no start date" then some task.startDate.isNone
    else if filter = jstr "has start date" then some task.startDate.isSome
    else
      match dateOnArg (filter.drop 6) with
      | some targetDate => some (decide (task.startDate = some targetDate))
      | none =>
      match dateWordArg (jstr "before") (filter.drop 6) with
      | some targetDate =>
        some (task.startDate.isSome && jsLtStr (task.startDate.getD []) targetDate)
      | none =>
      match dateWordArg (jstr "after") (filter.drop 6) with
      | some targetDate =>
        some (task.startDate.isSome && jsLtStr targetDate (task.startDate.getD []))
      | none => none
  else none

/-- `tag.replace(/^#/, "")`. -/
def stripHash (s : JSStr) : JSStr :=
  match s with
  | 0x23 :: t => t
  | _ => s

def isQuoteU (c : Nat) : Bool := c = 0x22 || c = 0x27

/-- `.replace(/^["\x27]|["\x27]$/g, "")`: one leading and one trailing
quote removed (the trailing match is sought in what remains). -/
def stripQuotes (s : JSStr) : JSStr :=
  let s1 := match s with
    | c :: t => if isQuoteU c then t else s
    | [] => s
  match s1.reverse with
  | c :: t => if isQuoteU c then t.reverse else s1
  | [] => s1

/-- Digit run to a natural number, for `parseFloat`. -/
def natOfDigitsU (ds : JSStr) : Nat := ds.foldl (fun a c => a * 10 + (c - 0x30)) 0

/-- JavaScript `parseFloat` on `NaN` inputs returns `none`.  Decimal
prefix with optional sign, fraction and exponent; the `Infinity` form is
omitted because every caller passes a lowercased string, which can never
spell it. -/
def parseFloatQ (s : JSStr) : Option ℚ :=
  let s0 := s.dropWhile isJsWS
  let signNeg : Bool := match s0 with
    | 0x2D :: _ => true
    | _ => false
  let s1 : JSStr := match s0 with
    | 0x2D :: t => t
    | 0x2B :: t => t
    | _ => s0
  let intPart := s1.takeWhile isDigitU
  let rest := s1.dropWhile isDigitU
  let fracPart : JSStr := match rest with
    | 0x2E :: t => t.takeWhile isDigitU
    | _ => []
  let rest2 : JSStr := match rest with
    | 0x2E :: t => t.dropWhile isDigitU
    | _ => rest
  if intPart.isEmpty && fracPart.isEmpty then none
  else
    let base : ℚ := (natOfDigitsU intPart : ℚ) +
      (natOfDigitsU fracPart : ℚ) / ((10 : ℚ) ^ fracPart.length)
    let withExp : ℚ := match rest2 with
      | 0x65 :: t => applyExpQ base t
      | 0x45 :: t => applyExpQ base t
      | _ => base
    some (if signNeg then -withExp else withExp)
where
  applyExpQ (base : ℚ) (t : JSStr) : ℚ :=
    let eNeg : Bool := match t with
      | 0x2D :: _ => true
      | _ => false
    let t1 : JSStr := match t with
      | 0x2D :: u => u
      | 0x2B :: u => u
      | _ => t
    let ds := t1.takeWhile isDigitU
    if ds.isEmpty then base
    else if eNeg then base / (10 : ℚ) ^ natOfDigitsU ds
    else base * (10 : ℚ) ^ natOfDigitsU ds

/-- `applyFilter`.  The clock read by the date filters
(`moment().format`) is injected as `today`; the fuel bounds the
recursion through the boolean combinators, every recursive call
receiving a strictly shorter filter string. -/
def applyFilterFuel (today : JSStr) : Nat → Task → JSStr → Bool
  | 0, _, _ => false
  | fuel + 1, task, filterArg =>
    let originalFilter := jsTrim filterArg
    let filter := jsTrim (jsToLower filterArg)
    if jsIncludes originalFilter (jstr " AND ") then
      (jsSplit originalFilter (jstr " AND ")).all
        (fun part => applyFilterFuel today fuel task (jsTrim part))
    else if jsIncludes originalFilter (jstr " OR ") then
      (jsSplit originalFilter (jstr " OR ")).any
        (fun part => applyFilterFuel today fuel task (jsTrim part))
    else if (jstr "NOT ").isPrefixOf originalFilter then
      !applyFilterFuel today fuel task (originalFilter.drop 4)
    else if filter = jstr "not done" then
      decide (task.status = TaskStatus.incomplete) ||
        decide (task.status = TaskStatus.inProgress)
    else if filter = jstr "done" then decide (task.status = TaskStatus.complete)
    else if (jstr "not ").isPrefixOf filter then
      !applyFilterFuel today fuel task (filter.drop 4)
    else if filter = jstr "cancelled" then decide (task.status = TaskStatus.cancelled)
    else if filter = jstr "in progress" then decide (task.status = TaskStatus.inProgress)
    else
      match dueFilterBlock today task filter with
      | some b => b
      | none =>
      match scheduledFilterBlock today task filter with
      | some b => b
      | none =>
      match startsFilterBlock today task filter with
      | some b => b
      | none =>
      if filter = jstr "no tags" then task.tags.isEmpty
      else if filter = jstr "has tags" then !task.tags.isEmpty
      else if (jstr "tag includes ").isPrefixOf filter then
        let tagToFind :=
          stripHash (jsTrim (((jsSplit filter (jstr "tag includes ")).getD 1 [])))
        task.tags.any (fun tag => jsIncludes (stripHash tag) tagToFind)
      else if (jstr "has tag ").isPrefixOf filter then
        let tagToFind := stripHash (jsTrim (filter.drop 8))
        task.tags.any (fun tag => decide (stripHash tag = tagToFind))
      else if (jstr "path includes").isPrefixOf filter then
        let pathToFind :=
          stripQuotes (jsTrim ((jsSplit filter (jstr "includes")).getD 1 []))
        jsIncludes (jsToLower task.filePath) (jsToLower pathToFind)
      else if (jstr "path does not include").isPrefixOf filter then
        let pathToExclude :=
          stripQuotes (jsTrim ((jsSplit filter (jstr "does not include")).getD 1 []))
        !jsIncludes (jsToLower task.filePath) (jsToLower pathToExclude)
      else if (jstr "description includes").isPrefixOf filter then
        let textToFind := jsTrim ((jsSplit filter (jstr "includes")).getD 1 [])
        jsIncludes (jsToLower task.description) (jsToLower textToFind)
      else if (jstr "description does not include").isPrefixOf filter then
        let textToExclude := jsTrim ((jsSplit filter (jstr "does not include")).getD 1 [])
        !jsIncludes (jsToLower task.description) (jsToLower textToExclude)
      else if (jstr "priority is").isPrefixOf filter then
        let priority := jsTrim ((jsSplit filter (jstr "priority is")).getD 1 [])
        if priority = jstr "highest" then decide (task.priority = some (jstr "highest"))
        else if priority = jstr "high" then decide (task.priority = some (jstr "high"))
        else if priority = jstr "medium" then decide (task.priority = some (jstr "medium"))
        else if priority = jstr "low" then decide (task.priority = some (jstr "low"))
        else if priority = jstr "lowest" then decide (task.priority = some (jstr "lowest"))
        else if priority = jstr "none" then task.priority.isNone
        else jsIncludes (jsToLower task.description) filter
      else if (jstr "urgency above").isPrefixOf filter then
        match parseFloatQ (jsTrim ((jsSplit filter (jstr "urgency above")).getD 1 [])) with
        | some threshold => decide (threshold < task.urgency)
        | none => false
      else if (jstr "urgency below").isPrefixOf filter then
        match parseFloatQ (jsTrim ((jsSplit filter (jstr "urgency below")).getD 1 [])) with
        | some threshold => decide (task.urgency < threshold)
        | none => false
      else if (jstr "urgency is").isPrefixOf filter then
        match parseFloatQ (jsTrim ((jsSplit filter (jstr "urgency is")).getD 1 [])) with
        | some value => decide (|task.urgency - value| < 1 / 1000)
        | none => false
      else jsIncludes (jsToLower task.description) filter

def applyFilter (today : JSStr) (task : Task) (filter : JSStr) : Bool :=
  applyFilterFuel today (filter.length + 1) task filter

/-- `parseQuery`: trimmed non-blank non-`#` lines, split into filter
lines and `sort by` lines (order preserved, as in the source loop). -/
def parseQuery (queryText : JSStr) : List JSStr × List JSStr :=
  let lines := ((jsSplit queryText (jstr "\n")).map jsTrim).filter
    (fun line => !line.isEmpty && !(jstr "#").isPrefixOf line)
  (lines.filter (fun line => !(jstr "sort by").isPrefixOf (jsToLower line)),
   lines.filter (fun line => (jstr "sort by").isPrefixOf (jsToLower line)))

/-- Stable insertion step: `x` goes before the first element it is
`le`-related to, hence before equal elements seen later. -/
def sortInsert {α : Type} (le : α → α → Bool) (x : α) : List α → List α
  | [] => [x]
  | b :: t => if le x b then x :: b :: t else b :: sortInsert le x t

/-- Model of `Array.prototype.sort(cmp)`: the ECMAScript spec requires a
stable sort, and for the consistent comparators used here every stable
sort returns the same list, so a stable insertion sort is an exact
model.  `le a b` stands for `cmp(a, b) <= 0`. -/
def jsSort {α : Type} (le : α → α → Bool) : List α → List α
  | [] => []
  | a :: t => sortInsert le a (jsSort le t)

/-- `applySorting`: default urgency-descending sort, otherwise the
`sort by` commands applied in reverse order. -/
def applySorting (tasks : List Task) (sortCommands : List JSStr) : List Task :=
  if sortCommands.isEmpty then
    jsSort (fun a b => decide (b.urgency ≤ a.urgency)) tasks
  else
    sortCommands.foldr
      (fun cmd acc =>
        let command := jsTrim (jsToLower cmd)
        if command = jstr "sort by urgency" ∨ command = jstr "sort by urgency reverse" then
          let reverse := jsIncludes command (jstr "reverse")
          jsSort (fun a b =>
            if reverse then decide (a.urgency ≤ b.urgency)
            else decide (b.urgency ≤ a.urgency)) acc
        else acc)
      tasks

/-- `queryTasks`: every filter line must pass (implicit AND), then the
sort commands are applied. -/
def queryTasks (today : JSStr) (tasks : List Task) (queryText : JSStr) : List Task :=
  applySorting
    (tasks.filter (fun task => (parseQuery queryText).1.all (applyFilter today task)))
    (parseQuery queryText).2

/-- A high-priority incomplete task, for the query-engine witness. -/
def highIncompleteTask : Task :=
  { id := jstr "q.md:1", description := jstr "alpha", status := TaskStatus.incomplete,
    statusSymbol := jstr " ", filePath := jstr "q.md", lineNumber := 1, tags := [],
    dueDate := none, scheduledDate := none, createdDate := none, startDate := none,
    priority := some (jstr "high"), recurrence := none, urgency := 6,
    originalMarkdown := jstr "- [ ] alpha" }

/-- A low-priority complete task, for the query-engine witness. -/
def lowCompleteTask : Task :=
  { id := jstr "q.md:2", description := jstr "beta", status := TaskStatus.complete,
    statusSymbol := jstr "x", filePath := jstr "q.md", lineNumber := 2, tags := [],
    dueDate := none, scheduledDate := none, createdDate := none, startDate := none,
    priority := some (jstr "low"), recurrence := none, urgency := 1,
    originalMarkdown := jstr "- [x] beta" }

def queryTaskList : List Task := [highIncompleteTask, lowCompleteTask]

/-! ## Theorems -/

/-- Helper: the truncated day difference at a midnight clock reading. -/
theorem momentDiffDays_false (dd t : Int) : momentDiffDays dd ⟨t, false⟩ = dd - t := by
  simp [momentDiffDays]

/-- Helper: unfolding the due-date component once the date string has
been parsed. -/
theorem dueScore_parsed (now : MomentNow) (s : JSStr) (x : YMD)
    (hx : parseYMD s = some x) :
    dueScore now (some s) = dueChain (momentDiffDays (civilToDays x) now) := by
  simp only [dueScore, hx]

/-- C3: the urgency score is the sum of the four component scores; a due
date equal to today contributes exactly 8.8, a due date 7 or more days
in the past contributes exactly 12.0, a due date more than 14 days in
the future contributes exactly 2.4, an absent priority contributes
exactly 1.95, and a task with no due, scheduled or start date, no
priority and no tags scores exactly 1.95 in total. -/
theorem urgency_component_values :
    (∀ now t, calculateUrgency now t =
      dueScore now t.dueDate + priorityScore t.priority +
        scheduledScore now t.scheduledDate + startScore now t.startDate) ∧
    (∀ now (t : Task) s x, t.dueDate = some s → parseYMD s = some x →
      civilToDays x = now.today → dueScore now t.dueDate = 88 / 10) ∧
    (∀ now (t : Task) s x, t.dueDate = some s → parseYMD s = some x →
      civilToDays x ≤ now.today - 7 → dueScore now t.dueDate = 12) ∧
    (∀ now (t : Task) s x, t.dueDate = some s → parseYMD s = some x →
      now.today + 15 ≤ civilToDays x → dueScore now t.dueDate = 24 / 10) ∧
    (∀ t : Task, t.priority = none → priorityScore t.priority = 39 / 20) ∧
    (∀ now (t : Task), t.dueDate = none → t.scheduledDate = none →
      t.startDate = none → t.priority = none → calculateUrgency now t = 39 / 20) := by
  have hchain : ∀ (d : Int), (d = 0 → dueChain d = 88 / 10) ∧
      (d ≤ -7 → dueChain d = 12) ∧ (14 ≤ d → dueChain d = 24 / 10) := by
    intro d
    refine ⟨fun h => ?_, fun h => ?_, fun h => ?_⟩
    · subst h
      norm_num [dueChain]
    · unfold dueChain
      rw [if_pos h]
    · rcases eq_or_lt_of_le h with h14 | h14
      · rw [← h14]
        norm_num [dueChain]
      · unfold dueChain
        rw [if_neg (show ¬ _ by omega), if_neg (show ¬ _ by omega),
          if_neg (show ¬ _ by omega), if_neg (show ¬ _ by omega),
          if_neg (show ¬ _ by omega), if_neg (show ¬ _ by omega),
          if_neg (show ¬ _ by omega), if_neg (show ¬ _ by omega),
          if_neg (show ¬ _ by omega), if_neg (show ¬ _ by omega),
          if_neg (show ¬ _ by omega), if_neg (show ¬ _ by omega),
          if_neg (show ¬ _ by omega), if_neg (show ¬ _ by omega),
          if_neg (show ¬ _ by omega), if_neg (show ¬ _ by omega),
          if_neg (show ¬ _ by omega), if_neg (show ¬ _ by omega),
          if_neg (show ¬ _ by omega), if_neg (show ¬ _ by omega),
          if_neg (show ¬ _ by omega), if_neg (show ¬ _ by omega),
          if_neg (show ¬ _ by omega), if_pos (by omega)]
  refine ⟨fun now t => rfl, ?_, ?_, ?_, ?_, ?_⟩
  · intro now t s x h1 h2 h3
    rw [h1, dueScore_parsed now s x h2]
    exact (hchain _).1 (by unfold momentDiffDays; split_ifs <;> omega)
  · intro now t s x h1 h2 h3
    rw [h1, dueScore_parsed now s x h2]
    exact (hchain _).2.1 (by unfold momentDiffDays; split_ifs <;> omega)
  · intro now t s x h1 h2 h3
    rw [h1, dueScore_parsed now s x h2]
    exact (hchain _).2.2 (by unfold momentDiffDays; split_ifs <;> omega)
  · intro t h
    rw [h]; unfold priorityScore
    simp
  · intro now t h1 h2 h3 h4
    unfold calculateUrgency
    rw [h1, h2, h3, h4]
    unfold dueScore scheduledScore startScore priorityScore
    simp

/-- Witness for `urgency_component_values` at concrete inputs. -/
theorem urgency_component_values_witness :
    dueScore now20200110 dueOnlyTask.dueDate = 88 / 10 ∧
    calculateUrgency now20200110 bareTask = 39 / 20 :=
  ⟨urgency_component_values.2.1 now20200110 dueOnlyTask (jstr "2020-01-10")
      ⟨2020, 1, 10⟩ rfl (by decide) rfl,
    urgency_component_values.2.2.2.2.2 now20200110 bareTask rfl rfl rfl rfl⟩

/-- C4 counterexample: the urgency scorer is not a function of the task
alone — evaluating `calculateUrgency` on the very same task at two
different clock readings yields two different numbers, because the
source reads the global clock (`moment()`) inside the function instead
of receiving "today" as a parameter. -/
theorem urgency_reads_clock_counterexample :
    calculateUrgency now20200110 dueOnlyTask ≠ calculateUrgency nowLater dueOnlyTask := by
  have h1 : parseYMD (jstr "2020-01-10") = some ⟨2020, 1, 10⟩ := by decide
  have e1 : dueOnlyTask.dueDate = some (jstr "2020-01-10") := rfl
  unfold calculateUrgency
  rw [e1, dueScore_parsed now20200110 _ _ h1, dueScore_parsed nowLater _ _ h1]
  have d1 : momentDiffDays (civilToDays ⟨2020, 1, 10⟩) now20200110 = 0 := by
    rw [show now20200110 = ⟨civilToDays ⟨2020, 1, 10⟩, false⟩ from rfl, momentDiffDays_false]
    omega
  have d2 : momentDiffDays (civilToDays ⟨2020, 1, 10⟩) nowLater = -100 := by
    rw [show nowLater = ⟨civilToDays ⟨2020, 1, 10⟩ + 100, false⟩ from rfl, momentDiffDays_false]
    omega
  rw [d1, d2]
  unfold dueChain
  norm_num [dueOnlyTask, priorityScore, scheduledScore, startScore, jstr, utf16Units]

/-- C4 (amended): the scorer is deterministic and ambient-state-free
once the clock reading is fixed — its value depends only on the task's
due, scheduled and start dates and its priority, together with the
injected clock value; but the source obtains that clock value by
reading the global clock inside `calculateUrgency` rather than taking
it as a parameter. -/
theorem urgency_deterministic (t₁ t₂ : Task) (now : MomentNow)
    (hd : t₁.dueDate = t₂.dueDate) (hs : t₁.scheduledDate = t₂.scheduledDate)
    (hst : t₁.startDate = t₂.startDate) (hp : t₁.priority = t₂.priority) :
    calculateUrgency now t₁ = calculateUrgency now t₂ := by
  unfold calculateUrgency
  rw [hd, hs, hst, hp]

/-- Witness for `urgency_deterministic`. -/
theorem urgency_deterministic_witness :
    calculateUrgency now20200110 dueOnlyTask = calculateUrgency now20200110 dueOnlyTask :=
  urgency_deterministic dueOnlyTask dueOnlyTask now20200110 rfl rfl rfl rfl


/-! ### Inversion helpers for parseTaskLine -/

theorem parseTaskLine_of_matchTask {now : MomentNow} {line fp : JSStr} {ln : Int}
    {ind mark sym rest : JSStr} (h : matchTask line = some (ind, mark, sym, rest)) :
    parseTaskLine now line fp ln = some (mkParsedTask now line fp ln sym rest) := by
  unfold parseTaskLine
  rw [h]

theorem parseTaskLine_inv {now : MomentNow} {line fp : JSStr} {ln : Int} {t : Task}
    (h : parseTaskLine now line fp ln = some t) :
    ∃ ind mark sym rest, matchTask line = some (ind, mark, sym, rest) ∧
      t = mkParsedTask now line fp ln sym rest := by
  unfold parseTaskLine at h
  cases hm : matchTask line with
  | none => rw [hm] at h; cases h
  | some q =>
    obtain ⟨ind, mark, sym, rest⟩ := q
    rw [hm] at h
    exact ⟨ind, mark, sym, rest, rfl, (Option.some.inj h).symm⟩

theorem mkParsedTask_statusSymbol (now : MomentNow) (line fp : JSStr) (ln : Int)
    (sym rest : JSStr) : (mkParsedTask now line fp ln sym rest).statusSymbol = sym := rfl

theorem mkParsedTask_status (now : MomentNow) (line fp : JSStr) (ln : Int)
    (sym rest : JSStr) :
    (mkParsedTask now line fp ln sym rest).status = statusOfSymbol sym := rfl

theorem mkParsedTask_description (now : MomentNow) (line fp : JSStr) (ln : Int)
    (sym rest : JSStr) :
    (mkParsedTask now line fp ln sym rest).description = jsTrim rest := rfl

/-! ### C2: the description field keeps its metadata -/

theorem matchTask_dashSpace (body : JSStr) :
    matchTask ([45, 32, 91, 32, 93, 32] ++ body) =
      some ([], [45], [32],
        (body.dropWhile (fun u => u = 0x20)).takeWhile (fun u => !isLineTerm u)) := rfl

/-- C2 counterexample: the claim says the parsed `description` is the
text with the metadata tokens removed (and tags re-appended), but on
`"- [ ] foo 📅 2025-01-01"` the parsed description still contains the
due-date token; the metadata-removed text (which
`extractCleanDescription` computes) is `"foo"`, a different string. -/
theorem description_keeps_metadata_counterexample :
    ((parseTaskLine now20200110 (jstr "- [ ] foo 📅 2025-01-01") (jstr "f.md") 1).map
        (fun t => t.description) = some (jstr "foo 📅 2025-01-01")) ∧
    extractCleanDescription (jstr "foo 📅 2025-01-01") = jstr "foo" ∧
    (jstr "foo 📅 2025-01-01" : JSStr) ≠ jstr "foo" :=
  ⟨by decide, by decide, by decide⟩

/-- C2 (amended): the parsed `description` is the raw text after the
checkbox, trimmed, with all metadata tokens retained; the
metadata-stripped, tags-reappended text is computed only by
`TaskSerializer.extractCleanDescription`, which serialization applies. -/
theorem parse_description_is_raw_body (now : MomentNow) (body fp : JSStr) (ln : Int)
    (hb : body.dropWhile isJsWS = body)
    (hl : ∀ c ∈ body, isLineTerm c = false) :
    (parseTaskLine now (jstr "- [ ] " ++ body) fp ln).map (fun t => t.description) =
      some (jsTrim body) := by
  have hcons : jstr "- [ ] " ++ body = [45, 32, 91, 32, 93, 32] ++ body := rfl
  rw [hcons, parseTaskLine_of_matchTask (matchTask_dashSpace body)]
  have hdrop : body.dropWhile (fun u => u = 0x20) = body := by
    cases body with
    | nil => rfl
    | cons c t =>
      rw [List.dropWhile_cons]
      rw [List.dropWhile_cons] at hb
      by_cases h20 : c = 32
      · exfalso
        rw [if_pos (by simp [h20, isJsWS])] at hb
        have h1 := congrArg List.length hb
        have h2 := (List.dropWhile_sublist (p := isJsWS) (l := t)).length_le
        simp at h1
        omega
      · simp [h20]
  have htake : body.takeWhile (fun u => !isLineTerm u) = body :=
    List.takeWhile_eq_self_iff.mpr (fun a ha => by simp [hl a ha])
  simp only [hdrop, htake]
  rfl

/-- Witness for `parse_description_is_raw_body`. -/
theorem parse_description_is_raw_body_witness :
    (parseTaskLine now20200110 (jstr "- [ ] " ++ jstr "foo 📅 2025-01-01") (jstr "f.md") 1).map
        (fun t => t.description) = some (jsTrim (jstr "foo 📅 2025-01-01")) :=
  parse_description_is_raw_body now20200110 (jstr "foo 📅 2025-01-01") (jstr "f.md") 1
    (by decide) (by decide)

/-! ### C9: first priority marker wins -/

/-- Helper: the global marker scan yields the marker at the smallest
matching index. -/
theorem firstPriorityMarker_at {s : JSStr} {i : Nat} {m : PriorityMarker}
    (hm : markerAt (s.drop i) = some m)
    (hmin : ∀ j, j < i → markerAt (s.drop j) = none) :
    firstPriorityMarker s = some m := by
  induction s generalizing i with
  | nil =>
    rw [List.drop_nil] at hm
    cases hm
  | cons c rest ih =>
    unfold firstPriorityMarker
    cases i with
    | zero =>
      rw [List.drop_zero] at hm
      rw [hm]
    | succ j =>
      have h0 : markerAt (c :: rest) = none := by
        have := hmin 0 (Nat.succ_pos j)
        rwa [List.drop_zero] at this
      rw [h0]
      exact ih (by simpa using hm) (fun k hk => by
        have := hmin (k + 1) (by omega)
        simpa using this)

/-- C9: for every parsed line the priority is the marker-to-level image
of the textually first priority marker in the description (the marker
matching at the smallest index, with `⏫⏫` taking precedence over `⏫`
at the same index per the alternation order), and the two visually
distinct "highest" forms 🔺 and ⏫⏫ both map to the `highest` level. -/
theorem priority_first_marker_wins :
    (∀ (now : MomentNow) (line fp : JSStr) (ln : Int) (t : Task),
      parseTaskLine now line fp ln = some t →
      t.priority = (firstPriorityMarker t.description).map priorityOfMarker) ∧
    (∀ (now : MomentNow) (line fp : JSStr) (ln : Int) (t : Task) (i : Nat)
      (m : PriorityMarker),
      parseTaskLine now line fp ln = some t →
      markerAt (t.description.drop i) = some m →
      (∀ j, j < i → markerAt (t.description.drop j) = none) →
      t.priority = some (priorityOfMarker m)) ∧
    priorityOfMarker .triUp = jstr "highest" ∧
    priorityOfMarker .dblUp = jstr "highest" := by
  have h1 : ∀ (now : MomentNow) (line fp : JSStr) (ln : Int) (t : Task),
      parseTaskLine now line fp ln = some t →
      t.priority = (firstPriorityMarker t.description).map priorityOfMarker := by
    intro now line fp ln t h
    obtain ⟨ind, mark, sym, rest, hm, ht⟩ := parseTaskLine_inv h
    subst ht
    rfl
  refine ⟨h1, ?_, rfl, rfl⟩
  intro now line fp ln t i m h hm hmin
  rw [h1 now line fp ln t h, firstPriorityMarker_at hm hmin]
  rfl

/-- Witness for `priority_first_marker_wins`: on the line
`"- [ ] a 🔽 b ⏫"` the first marker 🔽 (at index 2 of the
description) wins over the later ⏫, giving priority `low`. -/
theorem priority_first_marker_wins_witness :
    (mkParsedTask now20200110 (jstr "- [ ] a 🔽 b ⏫") (jstr "f.md") 1 (jstr " ")
      (jstr "a 🔽 b ⏫")).priority = some (jstr "low") :=
  priority_first_marker_wins.2.1 now20200110 (jstr "- [ ] a 🔽 b ⏫") (jstr "f.md") 1 _ 2
    PriorityMarker.low
    (parseTaskLine_of_matchTask
      (show matchTask (jstr "- [ ] a 🔽 b ⏫") =
          some ([], [45], jstr " ", jstr "a 🔽 b ⏫") by decide))
    (by decide) (by decide)


/-! ### C1: round trip -/

/-- C1 counterexample: the round trip does not preserve all field
values.  On `"- [ ] x 🔁 a-b ✅ 2024-01-01"` the parsed recurrence is
`"a-b ✅ 2024-01-01"`, but re-parsing the serialized line gives
recurrence `"a-b"` (the serializer re-emits the rule followed by a
second 🔁 token that truncates the lazy capture).  On
`"- [ ] x 📅 2024-01-01 #📅2025-05-05"` the parsed due date is
`"2024-01-01"`, but re-parsing the serialized line gives
`"2025-05-05"` (the stripped trailing tag, which embeds a due token, is
re-appended before the canonical due-date field).  Both lines parse,
tags, status and statusSymbol are unchanged, yet `recurrence`
respectively `dueDate` differ, refuting field identity. -/
theorem round_trip_counterexample :
    ((parseTaskLine now20200110 (jstr "- [ ] x 🔁 a-b ✅ 2024-01-01") (jstr "f.md") 1).map
        (fun t => t.recurrence) = some (some (jstr "a-b ✅ 2024-01-01"))) ∧
    (((parseTaskLine now20200110 (jstr "- [ ] x 🔁 a-b ✅ 2024-01-01") (jstr "f.md") 1).bind
        (fun t => parseTaskLine now20200110 (buildTaskLine t) (jstr "f.md") 1)).map
        (fun t => t.recurrence) = some (some (jstr "a-b"))) ∧
    (some (jstr "a-b ✅ 2024-01-01") : Option JSStr) ≠ some (jstr "a-b") ∧
    ((parseTaskLine now20200110 (jstr "- [ ] x 📅 2024-01-01 #📅2025-05-05") (jstr "f.md") 1).map
        (fun t => t.dueDate) = some (some (jstr "2024-01-01"))) ∧
    (((parseTaskLine now20200110 (jstr "- [ ] x 📅 2024-01-01 #📅2025-05-05") (jstr "f.md") 1).bind
        (fun t => parseTaskLine now20200110 (buildTaskLine t) (jstr "f.md") 1)).map
        (fun t => t.dueDate) = some (some (jstr "2025-05-05"))) ∧
    (some (jstr "2024-01-01") : Option JSStr) ≠ some (jstr "2025-05-05") :=
  ⟨by decide, by decide, by decide, by decide, by decide, by decide⟩

/-- Helper: the status character captured by `(.)` is a single
non-line-terminator unit or a surrogate pair. -/
theorem takePoint_shape {s sym r : JSStr} (h : takePoint s = some (sym, r)) :
    (∃ c, sym = [c] ∧ isLineTerm c = false) ∨
      (∃ c₁ c₂, sym = [c₁, c₂] ∧ isLineTerm c₁ = false ∧
        isHighSurrogate c₁ = true ∧ isLowSurrogate c₂ = true) := by
  unfold takePoint at h
  repeat' split at h
  all_goals first
    | exact Option.noConfusion h
    | (try (obtain ⟨h1, h2⟩ := Prod.mk.inj (Option.some.inj h); subst h1);
       first
       | exact Or.inl ⟨_, rfl, by simp_all⟩
       | exact Or.inr ⟨_, _, rfl, by simp_all, by simp_all, by simp_all⟩)

/-- Helper: re-parsing a rebuilt checkbox region: `(.)` consumes exactly
the original status character again when a `]` follows it. -/
theorem takePoint_rebuild {sym : JSStr} (rest : JSStr)
    (hs : (∃ c, sym = [c] ∧ isLineTerm c = false) ∨
      (∃ c₁ c₂, sym = [c₁, c₂] ∧ isLineTerm c₁ = false ∧
        isHighSurrogate c₁ = true ∧ isLowSurrogate c₂ = true)) :
    takePoint (sym ++ 93 :: rest) = some (sym, 93 :: rest) := by
  rcases hs with ⟨c, rfl, hc⟩ | ⟨c₁, c₂, rfl, hc, hh, hl⟩
  · show takePoint (c :: 93 :: rest) = _
    simp only [takePoint]
    rw [if_neg (by simp [hc])]
    by_cases hhs : isHighSurrogate c = true
    · rw [if_pos hhs, if_neg (by decide)]
    · rw [if_neg hhs]
  · show takePoint (c₁ :: c₂ :: 93 :: rest) = _
    simp only [takePoint]
    rw [if_neg (by simp [hc]), if_pos hh, if_pos hl]

/-- Helper: extracting the status-character shape from a successful
line match. -/
theorem matchTask_sym_shape {line ind mark sym rest : JSStr}
    (h : matchTask line = some (ind, mark, sym, rest)) :
    (∃ c, sym = [c] ∧ isLineTerm c = false) ∨
      (∃ c₁ c₂, sym = [c₁, c₂] ∧ isLineTerm c₁ = false ∧
        isHighSurrogate c₁ = true ∧ isLowSurrogate c₂ = true) := by
  unfold matchTask at h
  repeat' split at h
  all_goals first
    | exact Option.noConfusion h
    | (have e3 : _ = sym := congrArg (fun q : JSStr × JSStr × JSStr × JSStr => q.2.2.1)
        (Option.some.inj h);
       exact e3 ▸ takePoint_shape (by assumption))

/-- Helper: the shape of `matchTask` on a line beginning `"- ["`. -/
theorem matchTask_prefix (w : JSStr) :
    matchTask (45 :: 32 :: 91 :: w) =
      (match takePoint w with
      | none => none
      | some (sym, r5) =>
        match r5 with
        | c2 :: r6 =>
          if c2 = 0x5D then
            some ([], [45], sym,
              (r6.dropWhile (fun u => u = 0x20)).takeWhile (fun u => !isLineTerm u))
          else none
        | [] => none) := rfl

/-- Helper: `matchTask` succeeds on every rebuilt line, returning the
original status character. -/
theorem matchTask_rebuild (sym body : JSStr)
    (hp : takePoint (sym ++ 93 :: 32 :: body) = some (sym, 93 :: 32 :: body)) :
    matchTask ([45, 32, 91] ++ sym ++ [93, 32] ++ body) =
      some ([], [45], sym,
        ((32 :: body).dropWhile (fun u => u = 0x20)).takeWhile (fun u => !isLineTerm u)) := by
  have e : ([45, 32, 91] ++ sym ++ [93, 32] ++ body : JSStr) =
      45 :: 32 :: 91 :: (sym ++ 93 :: 32 :: body) := by simp
  rw [e, matchTask_prefix, hp]
  rfl

/-- C1 (amended): serializing a parsed task and parsing the result
always succeeds, and the re-parsed task has the same `status` and
`statusSymbol`; identity of all the other field values fails in
general — `round_trip_counterexample` exhibits parsed lines whose
`recurrence`, respectively `dueDate`, change across the round trip
when serializer stripping interacts with tokens embedded in the
description. -/
theorem round_trip_preserves_status (now now₂ : MomentNow) (line fp fp₂ : JSStr)
    (ln ln₂ : Int) (t : Task) (h : parseTaskLine now line fp ln = some t) :
    ∃ t₂, parseTaskLine now₂ (buildTaskLine t) fp₂ ln₂ = some t₂ ∧
      t₂.statusSymbol = t.statusSymbol ∧ t₂.status = t.status := by
  obtain ⟨ind, mark, sym, rest, hm, ht⟩ := parseTaskLine_inv h
  have hshape := matchTask_sym_shape hm
  have hsym : t.statusSymbol = sym := by rw [ht]; rfl
  have hstat : t.status = statusOfSymbol sym := by rw [ht]; rfl
  have hp : takePoint (sym ++ 93 :: 32 :: serialize t) = some (sym, 93 :: 32 :: serialize t) :=
    takePoint_rebuild (32 :: serialize t) hshape
  have hb : buildTaskLine t = [45, 32, 91] ++ sym ++ [93, 32] ++ serialize t := by
    unfold buildTaskLine
    rw [hsym]
    rfl
  have hmb := matchTask_rebuild sym (serialize t) hp
  rw [← hb] at hmb
  refine ⟨_, parseTaskLine_of_matchTask hmb, ?_, ?_⟩
  · rw [mkParsedTask_statusSymbol, hsym]
  · rw [mkParsedTask_status, hstat]

/-- Witness for `round_trip_preserves_status` on the end-to-end example
line of the specification. -/
theorem round_trip_preserves_status_witness :
    ∃ t₂, parseTaskLine now20200110
        (buildTaskLine (mkParsedTask now20200110
          (jstr "- [ ] Weekly review 🔁 every week 📅 2025-08-05") (jstr "f.md") 1
          (jstr " ") (jstr "Weekly review 🔁 every week 📅 2025-08-05")))
        (jstr "f.md") 1 = some t₂ ∧
      t₂.statusSymbol = (mkParsedTask now20200110
          (jstr "- [ ] Weekly review 🔁 every week 📅 2025-08-05") (jstr "f.md") 1
          (jstr " ") (jstr "Weekly review 🔁 every week 📅 2025-08-05")).statusSymbol ∧
      t₂.status = (mkParsedTask now20200110
          (jstr "- [ ] Weekly review 🔁 every week 📅 2025-08-05") (jstr "f.md") 1
          (jstr " ") (jstr "Weekly review 🔁 every week 📅 2025-08-05")).status :=
  round_trip_preserves_status now20200110 now20200110
    (jstr "- [ ] Weekly review 🔁 every week 📅 2025-08-05") (jstr "f.md") (jstr "f.md") 1 1 _
    (parseTaskLine_of_matchTask
      (show matchTask (jstr "- [ ] Weekly review 🔁 every week 📅 2025-08-05") =
          some ([], [45], jstr " ", jstr "Weekly review 🔁 every week 📅 2025-08-05") by decide))


/-! ### C5: calendar clamping -/

theorem daysInMonth_pos (y m : Int) : 1 ≤ daysInMonth y m := by
  unfold daysInMonth
  split_ifs <;> norm_num

theorem ensureValidDateGo_eq (y m : Int) (fuel : Nat) (day : Int)
    (hday : daysInMonth y m ≤ day) (hfuel : (day - daysInMonth y m).toNat < fuel) :
    ensureValidDateGo y m fuel day = ⟨y, m, daysInMonth y m⟩ := by
  induction fuel generalizing day with
  | zero => omega
  | succ n ih =>
    have hdim := daysInMonth_pos y m
    unfold ensureValidDateGo
    rw [if_pos (by omega)]
    by_cases hle : day ≤ daysInMonth y m
    · rw [if_pos hle]
      have : day = daysInMonth y m := le_antisymm hle hday
      rw [this]
    · rw [if_neg hle]
      exact ih (day - 1) (by omega) (by omega)

/-- `ensureValidDate` moves an out-of-range day backward to the last
day of the month and never forward. -/
theorem ensureValidDate_clamp (y m d : Int) (h1 : 1 ≤ d) :
    ensureValidDate ⟨y, m, d⟩ =
      if daysInMonth y m < d then ⟨y, m, daysInMonth y m⟩ else ⟨y, m, d⟩ := by
  have hdim := daysInMonth_pos y m
  unfold ensureValidDate
  dsimp only
  by_cases hv : d ≤ daysInMonth y m
  · rw [if_pos ⟨h1, hv⟩, if_neg (by omega)]
  · rw [if_neg (by omega), if_pos (by omega)]
    exact ensureValidDateGo_eq y m _ d (by omega) (by omega)

theorem ensureValidDate_of_valid {x : YMD} (h : isValidYMD x = true) :
    ensureValidDate x = x := by
  unfold ensureValidDate
  unfold isValidYMD at h
  simp only [Bool.and_eq_true, decide_eq_true_eq] at h
  obtain ⟨⟨⟨hm1, hm2⟩, hd1⟩, hd2⟩ := h
  rw [if_pos ⟨hd1, hd2⟩]

theorem succDay_valid {x : YMD} (h : isValidYMD x = true) :
    isValidYMD (succDay x) = true := by
  unfold isValidYMD at h ⊢
  simp only [Bool.and_eq_true, decide_eq_true_eq] at h ⊢
  obtain ⟨⟨⟨hm1, hm2⟩, hd1⟩, hd2⟩ := h
  unfold succDay
  by_cases h1 : x.d < daysInMonth x.y x.m
  · rw [if_pos h1]
    dsimp only
    omega
  · rw [if_neg h1]
    by_cases h2 : x.m < 12
    · rw [if_pos h2]
      have := daysInMonth_pos x.y (x.m + 1)
      dsimp only
      omega
    · rw [if_neg h2]
      have := daysInMonth_pos (x.y + 1) 1
      dsimp only
      omega

theorem calcNext_rec_some {now : MomentNow} {after : RRuleSpec → YMD → Option YMD}
    {t : Task} {cd : Option YMD} {r : JSStr} (hrec : t.recurrence = some r) :
    calculateNextOccurrence now after t cd = calcNextFromRec now after t cd r := by
  unfold calculateNextOccurrence
  rw [hrec]

theorem calcNextFromRec_step {now : MomentNow} {after : RRuleSpec → YMD → Option YMD}
    {t : Task} {cd : Option YMD} {r : JSStr} {refD : YMD}
    (href : (if (parseRecurrenceRule r).whenDone ∧ cd.isSome then cd
             else getReferenceDate t) = some refD) :
    calcNextFromRec now after t cd r =
      match nextDateOf after (parseRecurrenceRule r).rule refD with
      | none => none
      | some nextDate => some (mkNextTask now t cd (parseRecurrenceRule r) nextDate) := by
  unfold calcNextFromRec
  rw [href]

theorem mkNextTask_dueDate (now : MomentNow) (t : Task) (cd : Option YMD)
    (pr : ParsedRule) (nd : YMD) :
    (mkNextTask now t cd pr nd).dueDate =
      (if pr.whenDone ∧ cd.isSome then whenDoneDates t (mkNextBase t) nd
       else originalDates t (mkNextBase t) nd).dueDate := rfl

theorem originalShiftBranch_due (t base : Task) (dd : Int) (h : t.dueDate.isSome = true) :
    (originalShiftBranch t base dd).dueDate = some (shiftDate (t.dueDate.getD []) dd) := by
  simp only [originalShiftBranch]
  split_ifs <;> simp_all

set_option maxRecDepth 2000 in
theorem succDay_leap_chunk1 : succDay^[73] (⟨2024, 2, 29⟩ : YMD) = ⟨2024, 5, 12⟩ := by
  decide

set_option maxRecDepth 2000 in
theorem succDay_leap_chunk2 : succDay^[73] (⟨2024, 5, 12⟩ : YMD) = ⟨2024, 7, 24⟩ := by
  decide

set_option maxRecDepth 2000 in
theorem succDay_leap_chunk3 : succDay^[73] (⟨2024, 7, 24⟩ : YMD) = ⟨2024, 10, 5⟩ := by
  decide

set_option maxRecDepth 2000 in
theorem succDay_leap_chunk4 : succDay^[73] (⟨2024, 10, 5⟩ : YMD) = ⟨2024, 12, 17⟩ := by
  decide

set_option maxRecDepth 2000 in
theorem succDay_leap_chunk5 : succDay^[73] (⟨2024, 12, 17⟩ : YMD) = ⟨2025, 2, 28⟩ := by
  decide

theorem succDay_leap_year : succDay^[365] (⟨2024, 2, 29⟩ : YMD) = ⟨2025, 2, 28⟩ := by
  have e : (365 : Nat) = 73 + (73 + (73 + (73 + 73))) := by norm_num
  rw [e, Function.iterate_add_apply, Function.iterate_add_apply,
    Function.iterate_add_apply, Function.iterate_add_apply, succDay_leap_chunk1,
    succDay_leap_chunk2, succDay_leap_chunk3, succDay_leap_chunk4, succDay_leap_chunk5]

set_option maxRecDepth 2000 in
theorem shiftDate_leap_365 : shiftDate (jstr "2024-02-29") 365 = jstr "2025-02-28" := by
  unfold shiftDate
  rw [show parseYMD (jstr "2024-02-29") = some (⟨2024, 2, 29⟩ : YMD) from by decide]
  show fmtYMD (ensureValidDate (addDays ⟨2024, 2, 29⟩ 365)) = _
  unfold addDays
  rw [if_pos (by norm_num : (0 : Int) ≤ 365)]
  rw [show ((365 : Int).toNat) = 365 from rfl, succDay_leap_year]
  decide

set_option maxRecDepth 2000 in
/-- C5: calendar clamping.  A task due on 2024-02-29 recurring
`every year` gets next due date 2025-02-28 and a task due on
2025-01-31 recurring `every month` gets 2025-02-28, whatever the
clock, the rrule oracle or the completion date; `ensureValidDate`
moves an invalid day-of-month backward to the nearest valid day,
never forward; and moment month arithmetic clamps the day to the
target month without ever increasing it. -/
theorem recurrence_calendar_clamping :
    (∀ (now : MomentNow) (after : RRuleSpec → YMD → Option YMD) (cd : Option YMD),
      (calculateNextOccurrence now after leapYearTask cd).map (fun t => t.dueDate) =
        some (some (jstr "2025-02-28"))) ∧
    (∀ (now : MomentNow) (after : RRuleSpec → YMD → Option YMD) (cd : Option YMD),
      (calculateNextOccurrence now after monthEndTask cd).map (fun t => t.dueDate) =
        some (some (jstr "2025-02-28"))) ∧
    (∀ y m d : Int, 1 ≤ d →
      ensureValidDate ⟨y, m, d⟩ =
        if daysInMonth y m < d then ⟨y, m, daysInMonth y m⟩ else ⟨y, m, d⟩) ∧
    (∀ (x : YMD) (k : Int), isValidYMD x = true →
      (momentAddMonths x k).d ≤ x.d ∧ isValidYMD (momentAddMonths x k) = true) := by
  refine ⟨?_, ?_, ensureValidDate_clamp, ?_⟩
  · intro now after cd
    have href : (if (parseRecurrenceRule (jstr "every year")).whenDone ∧ cd.isSome
        then cd else getReferenceDate leapYearTask) = some ⟨2024, 2, 29⟩ := by
      rw [show parseRecurrenceRule (jstr "every year") =
          ⟨jstr "every year", false⟩ from by decide]
      simp only [Bool.false_eq_true, false_and, if_false]
      decide
    rw [calcNext_rec_some (show leapYearTask.recurrence =
        some (jstr "every year") from rfl)]
    rw [calcNextFromRec_step href]
    rw [show nextDateOf after (parseRecurrenceRule (jstr "every year")).rule
        ⟨2024, 2, 29⟩ = some ⟨2025, 2, 28⟩ from by
      rw [show parseRecurrenceRule (jstr "every year") =
          ⟨jstr "every year", false⟩ from by decide]
      unfold nextDateOf
      rw [if_pos (by decide)]
      rw [show parseSimplePattern (jstr "every year") =
          some ⟨1, RUnit.years⟩ from by decide]
      simp only [Option.map_some']
      decide]
    simp only [Option.map_some']
    rw [mkNextTask_dueDate]
    rw [if_neg (by
      rw [show parseRecurrenceRule (jstr "every year") =
          ⟨jstr "every year", false⟩ from by decide]
      simp)]
    rw [show originalDates leapYearTask (mkNextBase leapYearTask) ⟨2025, 2, 28⟩ =
        originalShiftBranch leapYearTask (mkNextBase leapYearTask)
          (civilToDays ⟨2025, 2, 28⟩ - civilToDays ⟨2024, 2, 29⟩) from by
      unfold originalDates
      rw [show getDateFromTask leapYearTask (getPrimaryDateField leapYearTask) =
          some ⟨2024, 2, 29⟩ from by decide]]
    rw [originalShiftBranch_due leapYearTask _ _ (by decide)]
    rw [show leapYearTask.dueDate.getD [] = jstr "2024-02-29" from by decide]
    rw [show civilToDays (⟨2025, 2, 28⟩ : YMD) - civilToDays ⟨2024, 2, 29⟩ =
        (365 : Int) from by decide]
    rw [shiftDate_leap_365]
  · intro now after cd
    have href : (if (parseRecurrenceRule (jstr "every month")).whenDone ∧ cd.isSome
        then cd else getReferenceDate monthEndTask) = some ⟨2025, 1, 31⟩ := by
      rw [show parseRecurrenceRule (jstr "every month") =
          ⟨jstr "every month", false⟩ from by decide]
      simp only [Bool.false_eq_true, false_and, if_false]
      decide
    rw [calcNext_rec_some (show monthEndTask.recurrence =
        some (jstr "every month") from rfl)]
    rw [calcNextFromRec_step href]
    rw [show nextDateOf after (parseRecurrenceRule (jstr "every month")).rule
        ⟨2025, 1, 31⟩ = some ⟨2025, 2, 28⟩ from by
      rw [show parseRecurrenceRule (jstr "every month") =
          ⟨jstr "every month", false⟩ from by decide]
      unfold nextDateOf
      rw [if_pos (by decide)]
      rw [show parseSimplePattern (jstr "every month") =
          some ⟨1, RUnit.months⟩ from by decide]
      simp only [Option.map_some']
      decide]
    simp only [Option.map_some']
    rw [mkNextTask_dueDate]
    rw [if_neg (by
      rw [show parseRecurrenceRule (jstr "every month") =
          ⟨jstr "every month", false⟩ from by decide]
      simp)]
    rw [show originalDates monthEndTask (mkNextBase monthEndTask) ⟨2025, 2, 28⟩ =
        originalShiftBranch monthEndTask (mkNextBase monthEndTask)
          (civilToDays ⟨2025, 2, 28⟩ - civilToDays ⟨2025, 1, 31⟩) from by
      unfold originalDates
      rw [show getDateFromTask monthEndTask (getPrimaryDateField monthEndTask) =
          some ⟨2025, 1, 31⟩ from by decide]]
    rw [originalShiftBranch_due monthEndTask _ _ (by decide)]
    rw [show monthEndTask.dueDate.getD [] = jstr "2025-01-31" from by decide]
    rw [show civilToDays (⟨2025, 2, 28⟩ : YMD) - civilToDays ⟨2025, 1, 31⟩ =
        (28 : Int) from by decide]
    rw [show shiftDate (jstr "2025-01-31") 28 = jstr "2025-02-28" from by decide]
  intro x k hx
  unfold isValidYMD at hx
  simp only [Bool.and_eq_true, decide_eq_true_eq] at hx
  obtain ⟨⟨⟨hm1, hm2⟩, hd1⟩, hd2⟩ := hx
  unfold momentAddMonths
  dsimp only
  constructor
  · exact min_le_left _ _
  · unfold isValidYMD
    dsimp only
    simp only [Bool.and_eq_true, decide_eq_true_eq]
    set t := x.y * 12 + (x.m - 1) + k with ht
    have e0 : 12 * (t / 12) + t % 12 = t := Int.ediv_add_emod t 12
    have e1 : 0 ≤ t % 12 := Int.emod_nonneg t (by norm_num)
    have e2 : t % 12 < 12 := Int.emod_lt_of_pos t (by norm_num)
    have hdim := daysInMonth_pos (t / 12) (t - t / 12 * 12 + 1)
    exact ⟨⟨⟨by omega, by omega⟩, le_min hd1 hdim⟩, min_le_right _ _⟩

/-- Witness for `recurrence_calendar_clamping`: day 31 clamps to 28 in
February 2025, and adding one month to 2025-01-31 is valid and not
after the 31st. -/
theorem recurrence_calendar_clamping_witness :
    ensureValidDate ⟨2025, 2, 31⟩ =
      (if daysInMonth 2025 2 < 31 then ⟨2025, 2, daysInMonth 2025 2⟩
       else (⟨2025, 2, 31⟩ : YMD)) ∧
    ((momentAddMonths ⟨2025, 1, 31⟩ 1).d ≤ (31 : Int) ∧
      isValidYMD (momentAddMonths ⟨2025, 1, 31⟩ 1) = true) :=
  ⟨recurrence_calendar_clamping.2.2.1 2025 2 31 (by norm_num),
    recurrence_calendar_clamping.2.2.2 ⟨2025, 1, 31⟩ 1 (by decide)⟩

/-! ### C6: when-done versus original-date recurrence -/

theorem calcSimple_one_day {E : YMD} (hE : isValidYMD E = true) :
    calculateSimpleNextOccurrence ⟨1, RUnit.days⟩ E = succDay E := by
  unfold calculateSimpleNextOccurrence addDays
  dsimp only
  rw [if_pos (by norm_num : (0 : Int) ≤ 1)]
  rw [show ((1 : Int).toNat) = 1 from rfl, Function.iterate_one]
  exact ensureValidDate_of_valid (succDay_valid hE)

theorem whenDoneDueBranch_due (t base : Task) (nd : YMD) :
    (whenDoneDueBranch t base nd).dueDate = some (fmtYMD nd) := by
  simp only [whenDoneDueBranch]
  split_ifs <;> rfl

/-- C6: for every task due 2025-08-05 with rule `every day when done`
completed on a (valid) day `D`, the successor's due date is the day
after `D`; with rule `every day` (no "when done") the successor's due
date is 2025-08-06 regardless of any completion date supplied. -/
theorem when_done_divergence :
    (∀ (now : MomentNow) (after : RRuleSpec → YMD → Option YMD) (t : Task) (D : YMD),
      t.recurrence = some (jstr "every day when done") →
      t.dueDate = some (jstr "2025-08-05") →
      isValidYMD D = true →
      (calculateNextOccurrence now after t (some D)).map (fun x => x.dueDate) =
        some (some (fmtYMD (succDay D)))) ∧
    (∀ (now : MomentNow) (after : RRuleSpec → YMD → Option YMD) (t : Task)
      (cd : Option YMD),
      t.recurrence = some (jstr "every day") →
      t.dueDate = some (jstr "2025-08-05") →
      (calculateNextOccurrence now after t cd).map (fun x => x.dueDate) =
        some (some (jstr "2025-08-06"))) := by
  constructor
  · intro now after t D hrec hdue hD
    have hpf : getPrimaryDateField t = some .dueDate := by
      unfold getPrimaryDateField
      rw [hdue]
      rfl
    have href : (if (parseRecurrenceRule (jstr "every day when done")).whenDone ∧
        (some D).isSome then some D else getReferenceDate t) = some D := by
      rw [show parseRecurrenceRule (jstr "every day when done") =
          ⟨jstr "every day", true⟩ from by decide]
      simp
    rw [calcNext_rec_some hrec, calcNextFromRec_step href]
    rw [show nextDateOf after (parseRecurrenceRule (jstr "every day when done")).rule D =
        some (calculateSimpleNextOccurrence ⟨1, RUnit.days⟩ D) from by
      rw [show parseRecurrenceRule (jstr "every day when done") =
          ⟨jstr "every day", true⟩ from by decide]
      unfold nextDateOf
      rw [if_pos (by decide)]
      rw [show parseSimplePattern (jstr "every day") = some ⟨1, RUnit.days⟩ from by decide]
      rfl]
    rw [calcSimple_one_day hD]
    simp only [Option.map_some']
    rw [mkNextTask_dueDate]
    rw [if_pos (by
      rw [show parseRecurrenceRule (jstr "every day when done") =
          ⟨jstr "every day", true⟩ from by decide]
      exact ⟨rfl, rfl⟩)]
    rw [show whenDoneDates t (mkNextBase t) (succDay D) =
        whenDoneDueBranch t (mkNextBase t) (succDay D) from by
      unfold whenDoneDates
      rw [hpf]]
    rw [whenDoneDueBranch_due]
  · intro now after t cd hrec hdue
    have hpf : getPrimaryDateField t = some .dueDate := by
      unfold getPrimaryDateField
      rw [hdue]
      rfl
    have href : (if (parseRecurrenceRule (jstr "every day")).whenDone ∧ cd.isSome
        then cd else getReferenceDate t) = some ⟨2025, 8, 5⟩ := by
      rw [show parseRecurrenceRule (jstr "every day") =
          ⟨jstr "every day", false⟩ from by decide]
      simp only [Bool.false_eq_true, false_and, if_false]
      unfold getReferenceDate
      rw [hdue]
      rfl
    rw [calcNext_rec_some hrec, calcNextFromRec_step href]
    rw [show nextDateOf after (parseRecurrenceRule (jstr "every day")).rule ⟨2025, 8, 5⟩ =
        some ⟨2025, 8, 6⟩ from by
      rw [show parseRecurrenceRule (jstr "every day") =
          ⟨jstr "every day", false⟩ from by decide]
      unfold nextDateOf
      rw [if_pos (by decide)]
      rw [show parseSimplePattern (jstr "every day") = some ⟨1, RUnit.days⟩ from by decide]
      rfl]
    simp only [Option.map_some']
    rw [mkNextTask_dueDate]
    rw [if_neg (by
      rw [show parseRecurrenceRule (jstr "every day") =
          ⟨jstr "every day", false⟩ from by decide]
      simp)]
    rw [show originalDates t (mkNextBase t) ⟨2025, 8, 6⟩ =
        originalShiftBranch t (mkNextBase t)
          (civilToDays ⟨2025, 8, 6⟩ - civilToDays ⟨2025, 8, 5⟩) from by
      unfold originalDates
      rw [show getDateFromTask t (getPrimaryDateField t) = some ⟨2025, 8, 5⟩ from by
        rw [hpf]
        unfold getDateFromTask
        rw [hdue]
        rfl]]
    rw [originalShiftBranch_due t _ _ (by rw [hdue]; rfl)]
    rw [hdue]
    rw [show shiftDate ((some (jstr "2025-08-05")).getD [])
        (civilToDays ⟨2025, 8, 6⟩ - civilToDays ⟨2025, 8, 5⟩) = jstr "2025-08-06" from by
      decide]

/-- Witness for `when_done_divergence`: completing the
`every day when done` task on 2025-09-01 schedules 2025-09-02, and the
plain `every day` task always moves to 2025-08-06. -/
theorem when_done_divergence_witness :
    ((calculateNextOccurrence ⟨0, false⟩ noneAfter dailyWhenDoneTask
        (some ⟨2025, 9, 1⟩)).map (fun x => x.dueDate) =
      some (some (fmtYMD (succDay ⟨2025, 9, 1⟩)))) ∧
    ((calculateNextOccurrence ⟨0, false⟩ noneAfter dailyTask
        (some ⟨2025, 9, 1⟩)).map (fun x => x.dueDate) =
      some (some (jstr "2025-08-06"))) :=
  ⟨when_done_divergence.1 ⟨0, false⟩ noneAfter dailyWhenDoneTask ⟨2025, 9, 1⟩ rfl rfl
      (by decide),
    when_done_divergence.2 ⟨0, false⟩ noneAfter dailyTask (some ⟨2025, 9, 1⟩) rfl rfl⟩

/-! ### C8: filter combinator semantics -/

theorem mem_sortInsert {α : Type} (le : α → α → Bool) (x a : α) (l : List α) :
    a ∈ sortInsert le x l ↔ a = x ∨ a ∈ l := by
  induction l with
  | nil => simp [sortInsert]
  | cons b t ih =>
    unfold sortInsert
    by_cases h : le x b = true
    · rw [if_pos h]
      simp [List.mem_cons]
    · rw [if_neg h]
      simp only [List.mem_cons, ih]
      tauto

theorem mem_jsSort {α : Type} (le : α → α → Bool) (a : α) (l : List α) :
    a ∈ jsSort le l ↔ a ∈ l := by
  induction l with
  | nil => simp [jsSort]
  | cons b t ih =>
    unfold jsSort
    rw [mem_sortInsert]
    simp [List.mem_cons, ih]

theorem applySorting_nil (l : List Task) :
    applySorting l [] = jsSort (fun a b => decide (b.urgency ≤ a.urgency)) l := rfl

theorem applyFilter_not_done (today : JSStr) (t : Task) :
    applyFilter today t (jstr "not done") =
      (decide (t.status = TaskStatus.incomplete) ||
        decide (t.status = TaskStatus.inProgress)) := rfl

theorem applyFilter_priority_high (today : JSStr) (t : Task) :
    applyFilter today t (jstr "priority is high") =
      decide (t.priority = some (jstr "high")) := rfl

theorem applyFilter_or_high_medium (today : JSStr) (t : Task) :
    applyFilter today t (jstr "priority is high OR priority is medium") =
      (decide (t.priority = some (jstr "high")) ||
        decide (t.priority = some (jstr "medium"))) := by
  show (decide (t.priority = some (jstr "high")) ||
      (decide (t.priority = some (jstr "medium")) || false)) = _
  simp

theorem parseQuery_notdone_high :
    parseQuery (jstr "not done\npriority is high") =
      ([jstr "not done", jstr "priority is high"], []) := by decide

theorem parseQuery_or_line :
    parseQuery (jstr "priority is high OR priority is medium") =
      ([jstr "priority is high OR priority is medium"], []) := by decide

theorem mem_queryTasks_notdone_high (today : JSStr) (ts : List Task) (t : Task) :
    t ∈ queryTasks today ts (jstr "not done\npriority is high") ↔
      (t ∈ ts ∧ applyFilter today t (jstr "not done") = true ∧
        applyFilter today t (jstr "priority is high") = true) := by
  unfold queryTasks
  rw [parseQuery_notdone_high]
  dsimp only
  rw [applySorting_nil, mem_jsSort, List.mem_filter]
  simp only [List.all_cons, List.all_nil, Bool.and_true, Bool.and_eq_true]

/-- C8: combinator semantics of the query engine.  The two-line query
`not done` / `priority is high` returns exactly the members that are
incomplete or in progress and have priority `high`; the single-line
query `priority is high OR priority is medium` returns exactly the
union of the high- and medium-priority members; and the two filter
lines are combined with implicit AND (membership is exactly passing
both `applyFilter` calls). -/
theorem filter_combinator_semantics :
    (∀ (today : JSStr) (ts : List Task),
      (∃ t ∈ ts, (t.status = TaskStatus.incomplete ∨ t.status = TaskStatus.inProgress) ∧
        t.priority = some (jstr "high")) →
      (∃ t ∈ ts, t.status = TaskStatus.complete ∧ t.priority = some (jstr "low")) →
      ∀ t : Task, t ∈ queryTasks today ts (jstr "not done\npriority is high") ↔
        (t ∈ ts ∧ (t.status = TaskStatus.incomplete ∨ t.status = TaskStatus.inProgress) ∧
          t.priority = some (jstr "high"))) ∧
    (∀ (today : JSStr) (ts : List Task) (t : Task),
      t ∈ queryTasks today ts (jstr "priority is high OR priority is medium") ↔
        (t ∈ ts ∧ (t.priority = some (jstr "high") ∨
          t.priority = some (jstr "medium")))) ∧
    (∀ (today : JSStr) (ts : List Task) (t : Task),
      t ∈ queryTasks today ts (jstr "not done\npriority is high") ↔
        (t ∈ ts ∧ applyFilter today t (jstr "not done") = true ∧
          applyFilter today t (jstr "priority is high") = true)) := by
  refine ⟨?_, ?_, ?_⟩
  · intro today ts _ _ t
    rw [mem_queryTasks_notdone_high, applyFilter_not_done, applyFilter_priority_high]
    simp [Bool.or_eq_true, decide_eq_true_eq]
  · intro today ts t
    unfold queryTasks
    rw [parseQuery_or_line]
    dsimp only
    rw [applySorting_nil, mem_jsSort, List.mem_filter]
    simp only [List.all_cons, List.all_nil, Bool.and_true]
    rw [applyFilter_or_high_medium]
    simp [Bool.or_eq_true, decide_eq_true_eq]
  · intro today ts t
    exact mem_queryTasks_notdone_high today ts t

/-- Witness for `filter_combinator_semantics`: a two-task set with a
high-priority incomplete task and a low-priority complete task
satisfies the hypotheses, and the two-line query on it is characterized
by the theorem. -/
theorem filter_combinator_semantics_witness :
    ((∃ t ∈ queryTaskList,
        (t.status = TaskStatus.incomplete ∨ t.status = TaskStatus.inProgress) ∧
        t.priority = some (jstr "high")) ∧
      (∃ t ∈ queryTaskList, t.status = TaskStatus.complete ∧
        t.priority = some (jstr "low"))) ∧
    (∀ t : Task, t ∈ queryTasks (jstr "2025-01-01") queryTaskList
        (jstr "not done\npriority is high") ↔
      (t ∈ queryTaskList ∧
        (t.status = TaskStatus.incomplete ∨ t.status = TaskStatus.inProgress) ∧
        t.priority = some (jstr "high"))) :=
  ⟨⟨by decide, by decide⟩,
    filter_combinator_semantics.1 (jstr "2025-01-01") queryTaskList
      (by decide) (by decide)⟩

/-! ### C7 and C10: completeTask -/

theorem completeTaskCore_parsed {now : MomentNow} {after : RRuleSpec → YMD → Option YMD}
    {filePath : JSStr} {lines : List JSStr} {lineNumber : Int}
    {today : JSStr} {todayYMD : YMD} {task : Task}
    (h1 : 1 ≤ lineNumber) (h2 : lineNumber ≤ (lines.length : Int))
    (hparse : parseTaskLine now (lines.getD (lineNumber - 1).toNat []) filePath
      lineNumber = some task) :
    completeTaskCore now after filePath lines lineNumber today todayYMD =
      completeParsed now after lines (lineNumber - 1).toNat
        (lines.getD (lineNumber - 1).toNat []) today todayYMD task := by
  unfold completeTaskCore
  rw [if_neg (by simp only [not_or, not_lt]; exact ⟨h1, h2⟩), hparse]

theorem completeParsed_active {now : MomentNow} {after : RRuleSpec → YMD → Option YMD}
    {lines : List JSStr} {targetLineIndex : Nat} {originalLine today : JSStr}
    {todayYMD : YMD} {task : Task} (hnd : task.status ≠ TaskStatus.complete) :
    completeParsed now after lines targetLineIndex originalLine today todayYMD task =
      completeActive now after lines targetLineIndex originalLine today todayYMD task := by
  unfold completeParsed
  rw [if_neg hnd]

theorem completeActive_norec {now : MomentNow} {after : RRuleSpec → YMD → Option YMD}
    {lines : List JSStr} {targetLineIndex : Nat} {originalLine today : JSStr}
    {todayYMD : YMD} {task : Task} (hno : (task.recurrence.getD []).isEmpty = true) :
    completeActive now after lines targetLineIndex originalLine today todayYMD task =
      ⟨true, completeMsg originalLine (completionLine today originalLine),
        lines.set targetLineIndex (completionLine today originalLine)⟩ := by
  unfold completeActive
  rw [if_pos hno]

theorem completeActive_recur {now : MomentNow} {after : RRuleSpec → YMD → Option YMD}
    {lines : List JSStr} {targetLineIndex : Nat} {originalLine today : JSStr}
    {todayYMD : YMD} {task : Task} (hrec : (task.recurrence.getD []).isEmpty = false) :
    completeActive now after lines targetLineIndex originalLine today todayYMD task =
      completeRecur now after lines targetLineIndex originalLine today todayYMD task := by
  unfold completeActive
  rw [hrec, if_neg (by simp)]

theorem completeRecur_none {now : MomentNow} {after : RRuleSpec → YMD → Option YMD}
    {lines : List JSStr} {targetLineIndex : Nat} {originalLine today : JSStr}
    {todayYMD : YMD} {task : Task}
    (hfail : calculateNextOccurrence now after task (some todayYMD) = none) :
    completeRecur now after lines targetLineIndex originalLine today todayYMD task =
      ⟨true, completeMsg originalLine (completionLine today originalLine) ++ skipNoteStr,
        lines.set targetLineIndex (completionLine today originalLine)⟩ := by
  unfold completeRecur
  rw [hfail]

/-- C7: recurrence failure is non-fatal to completion.  When the target
line parses as a not-yet-complete task with a (truthy) recurrence text
for which the next occurrence cannot be computed, the completion still
succeeds: the checkbox replacement and conditional completion stamp
commit to the target line, no successor line is inserted (the line
count is preserved), and the returned message carries the skip note. -/
theorem recurrence_failure_nonfatal
    {now : MomentNow} {after : RRuleSpec → YMD → Option YMD}
    {filePath : JSStr} {lines : List JSStr} {lineNumber : Int}
    {today : JSStr} {todayYMD : YMD} {task : Task}
    (h1 : 1 ≤ lineNumber) (h2 : lineNumber ≤ (lines.length : Int))
    (hparse : parseTaskLine now (lines.getD (lineNumber - 1).toNat []) filePath
      lineNumber = some task)
    (hnd : task.status ≠ TaskStatus.complete)
    (hrec : (task.recurrence.getD []).isEmpty = false)
    (hfail : calculateNextOccurrence now after task (some todayYMD) = none) :
    completeTaskCore now after filePath lines lineNumber today todayYMD =
      ⟨true,
        completeMsg (lines.getD (lineNumber - 1).toNat [])
          (completionLine today (lines.getD (lineNumber - 1).toNat [])) ++ skipNoteStr,
        lines.set (lineNumber - 1).toNat
          (completionLine today (lines.getD (lineNumber - 1).toNat []))⟩ ∧
    (completeTaskCore now after filePath lines lineNumber today todayYMD).lines.length =
      lines.length := by
  have e : completeTaskCore now after filePath lines lineNumber today todayYMD =
      ⟨true,
        completeMsg (lines.getD (lineNumber - 1).toNat [])
          (completionLine today (lines.getD (lineNumber - 1).toNat [])) ++ skipNoteStr,
        lines.set (lineNumber - 1).toNat
          (completionLine today (lines.getD (lineNumber - 1).toNat []))⟩ := by
    rw [completeTaskCore_parsed h1 h2 hparse, completeParsed_active hnd,
      completeActive_recur hrec, completeRecur_none hfail]
  refine ⟨e, ?_⟩
  rw [e]
  exact List.length_set lines _ _

/-- Witness for `recurrence_failure_nonfatal`: completing the single
line `- [ ] water plants 🔁 every foo`, whose recurrence text no
interpreter accepts, succeeds with the skip note and an unchanged line
count. -/
theorem recurrence_failure_nonfatal_witness :
    ((1 : Int) ≤ 1 ∧ (1 : Int) ≤ (([unparseableRecLine] : List JSStr).length : Int) ∧
      parseTaskLine ⟨0, false⟩
        (([unparseableRecLine] : List JSStr).getD ((1 : Int) - 1).toNat [])
        (jstr "f.md") 1 = some unparseableRecTask ∧
      unparseableRecTask.status ≠ TaskStatus.complete ∧
      (unparseableRecTask.recurrence.getD []).isEmpty = false ∧
      calculateNextOccurrence ⟨0, false⟩ noneAfter unparseableRecTask
        (some ⟨2025, 1, 2⟩) = none) ∧
    (completeTaskCore ⟨0, false⟩ noneAfter (jstr "f.md") [unparseableRecLine] 1
        (jstr "2025-01-02") ⟨2025, 1, 2⟩ =
      ⟨true,
        completeMsg (([unparseableRecLine] : List JSStr).getD ((1 : Int) - 1).toNat [])
          (completionLine (jstr "2025-01-02")
            (([unparseableRecLine] : List JSStr).getD ((1 : Int) - 1).toNat [])) ++
          skipNoteStr,
        ([unparseableRecLine] : List JSStr).set ((1 : Int) - 1).toNat
          (completionLine (jstr "2025-01-02")
            (([unparseableRecLine] : List JSStr).getD ((1 : Int) - 1).toNat []))⟩ ∧
      (completeTaskCore ⟨0, false⟩ noneAfter (jstr "f.md") [unparseableRecLine] 1
          (jstr "2025-01-02") ⟨2025, 1, 2⟩).lines.length =
        ([unparseableRecLine] : List JSStr).length) :=
  ⟨⟨by decide, by decide, rfl, by decide, by decide, by decide⟩,
    recurrence_failure_nonfatal (by decide) (by decide) rfl (by decide) (by decide)
      (by decide)⟩

/-- The line `- [✅] t` contains ✅, yet completing it appends a
completion stamp: the ✅ sat inside the checkbox, was overwritten by
the `[x]` replacement, and the stamp test runs on the replaced line. -/
theorem stamp_despite_marker_counterexample :
    jsIncludes statusCheckLine (jstr "✅") = true ∧
    (completeTaskCore ⟨0, false⟩ noneAfter (jstr "f.md") [statusCheckLine] 1
        (jstr "2025-01-02") ⟨2025, 1, 2⟩).lines =
      [jstr "- [x] t ✅ 2025-01-02"] ∧
    jsIncludes (jstr "- [x] t ✅ 2025-01-02") (jstr "✅") = true := by
  decide

/-- C10 (amended): completing a parsed, not-yet-complete task with no
(truthy) recurrence rewrites the target line by replacing the first
checkbox with `[x]`, and the completion stamp is appended exactly when
✅ does not occur in the line AFTER that replacement — i.e. anywhere
outside the replaced checkbox; a ✅ elsewhere in the line suppresses
the stamp while the status replacement still occurs. -/
theorem completion_stamp_suppression
    {now : MomentNow} {after : RRuleSpec → YMD → Option YMD}
    {filePath : JSStr} {lines : List JSStr} {lineNumber : Int}
    {today : JSStr} {todayYMD : YMD} {task : Task}
    (h1 : 1 ≤ lineNumber) (h2 : lineNumber ≤ (lines.length : Int))
    (hparse : parseTaskLine now (lines.getD (lineNumber - 1).toNat []) filePath
      lineNumber = some task)
    (hnd : task.status ≠ TaskStatus.complete)
    (hno : (task.recurrence.getD []).isEmpty = true) :
    (completeTaskCore now after filePath lines lineNumber today todayYMD).success =
      true ∧
    (completeTaskCore now after filePath lines lineNumber today todayYMD).lines =
      lines.set (lineNumber - 1).toNat
        (if jsIncludes (replaceCheckbox (lines.getD (lineNumber - 1).toNat []))
            (jstr "✅") = true then
          replaceCheckbox (lines.getD (lineNumber - 1).toNat [])
        else
          replaceCheckbox (lines.getD (lineNumber - 1).toNat []) ++
            (jstr " ✅ " ++ today)) := by
  have e : completeTaskCore now after filePath lines lineNumber today todayYMD =
      ⟨true,
        completeMsg (lines.getD (lineNumber - 1).toNat [])
          (completionLine today (lines.getD (lineNumber - 1).toNat [])),
        lines.set (lineNumber - 1).toNat
          (completionLine today (lines.getD (lineNumber - 1).toNat []))⟩ := by
    rw [completeTaskCore_parsed h1 h2 hparse, completeParsed_active hnd,
      completeActive_norec hno]
  rw [e]
  exact ⟨rfl, rfl⟩

/-- Witness for `completion_stamp_suppression`: completing the plain
line `- [ ] write report` replaces the checkbox and, with no ✅ in the
replaced line, appends the stamp. -/
theorem completion_stamp_suppression_witness :
    ((1 : Int) ≤ 1 ∧ (1 : Int) ≤ (([plainLine] : List JSStr).length : Int) ∧
      parseTaskLine ⟨0, false⟩ (([plainLine] : List JSStr).getD ((1 : Int) - 1).toNat [])
        (jstr "f.md") 1 = some plainLineTask ∧
      plainLineTask.status ≠ TaskStatus.complete ∧
      (plainLineTask.recurrence.getD []).isEmpty = true) ∧
    ((completeTaskCore ⟨0, false⟩ noneAfter (jstr "f.md") [plainLine] 1
        (jstr "2025-01-02") ⟨2025, 1, 2⟩).success = true ∧
      (completeTaskCore ⟨0, false⟩ noneAfter (jstr "f.md") [plainLine] 1
          (jstr "2025-01-02") ⟨2025, 1, 2⟩).lines =
        ([plainLine] : List JSStr).set ((1 : Int) - 1).toNat
          (if jsIncludes (replaceCheckbox (([plainLine] : List JSStr).getD
              ((1 : Int) - 1).toNat [])) (jstr "✅") = true then
            replaceCheckbox (([plainLine] : List JSStr).getD ((1 : Int) - 1).toNat [])
          else
            replaceCheckbox (([plainLine] : List JSStr).getD ((1 : Int) - 1).toNat []) ++
              (jstr " ✅ " ++ jstr "2025-01-02"))) :=
  ⟨⟨by decide, by decide, rfl, by decide, by decide⟩,
    completion_stamp_suppression (by decide) (by decide) rfl (by decide) (by decide)⟩

end TaskParser
